import Mathlib

/-!
Verification of the referee-assignment reconciliation and scoring engine
(`load_data.py`): a shallow embedding of the loader, aggregator, scorers,
minutes estimator and spreadsheet shaping, together with theorems settling
the specification claims.

Conventions of the embedding:
* Python dicts are insertion-ordered association lists; dict assignment
  updates in place or appends, dict lookup is fallible.
* Python exceptions (`ValueError`, `KeyError`, `AssertionError`) are
  modelled with `Except String`.
* `Decimal` arithmetic is modelled with `ℚ` (the amounts handled are exact
  in both).
* `datetime.now()` is modelled by explicit `year`/`month` parameters.
* Python strings are compared and sliced through their character lists.
-/

/-- The four nesting levels of the ledger, as in the source: role → count. -/
abbrev RoleType := List (String × Nat)

/-- Division → role table. -/
abbrev LevelType := List (String × RoleType)

/-- Season type ("Regular Season" / "Tournament") → division table. -/
abbrev RegularSeasonOrTourneyType := List (String × LevelType)

/-- Person display name → season table. -/
abbrev UserTotalsType := List (String × RegularSeasonOrTourneyType)

/-- Fallible dict lookup (`d[k]`, raising `KeyError` on a miss is done at
each call site). -/
def lookupKey {κ α : Type} [DecidableEq κ] : List (κ × α) → κ → Option α
  | [], _ => none
  | (k', v) :: rest, k => if k' = k then some v else lookupKey rest k

/-- Dict assignment `d[k] = v`: update in place, else append. -/
def setKey {κ α : Type} [DecidableEq κ] : List (κ × α) → κ → α → List (κ × α)
  | [], k, v => [(k, v)]
  | (k', v') :: rest, k, v =>
    if k' = k then (k', v) :: rest else (k', v') :: setKey rest k v

/-- Defaultdict update `d[k] = f(d.get(k, dflt))`. -/
def updKey {α : Type} : List (String × α) → String → α → (α → α) → List (String × α)
  | [], k, dflt, f => [(k, f dflt)]
  | (k', v) :: rest, k, dflt, f =>
    if k' = k then (k', f v) :: rest else (k', v) :: updKey rest k dflt f

/-- Dict membership test `k in d`. -/
def hasKey {κ α : Type} [DecidableEq κ] (d : List (κ × α)) (k : κ) : Bool :=
  d.any (fun p => p.1 = k)

/-- Python `s[:n]`. -/
def strTake (s : String) (n : Nat) : String := String.mk (s.data.take n)

/-- Python `s.lower()` / `s.casefold()` (ASCII data). -/
def lowerStr (s : String) : String := String.mk (s.data.map Char.toLower)

/-- Python `s.strip()`. -/
def stripStr (s : String) : String :=
  String.mk (((s.data.dropWhile Char.isWhitespace).reverse.dropWhile Char.isWhitespace).reverse)

/-- Does `pat` occur at the head of `s`? -/
def leadsWith : List Char → List Char → Bool
  | [], _ => true
  | _ :: _, [] => false
  | p :: ps, c :: cs => p == c && leadsWith ps cs

/-- Does `pat` occur anywhere inside the character list? -/
def hasSub (pat : List Char) : List Char → Bool
  | [] => leadsWith pat []
  | c :: cs => leadsWith pat (c :: cs) || hasSub pat cs

/-- Python substring test `pat in s`. -/
def strContainsSub (s pat : String) : Bool := hasSub pat.data s.data

/-- Digit-run parser used by `pyInt`. -/
def pyDigits (cs : List Char) : Option Nat :=
  if cs.isEmpty then none
  else if cs.all Char.isDigit then
    some (cs.foldl (fun n c => n * 10 + (c.toNat - '0'.toNat)) 0)
  else none

/-- Python `int(s)` on a short string: optional surrounding whitespace,
optional sign, then decimal digits. -/
def pyInt (s : String) : Option Int :=
  match (s.data.dropWhile Char.isWhitespace).reverse.dropWhile Char.isWhitespace |>.reverse with
  | '-' :: rest => (pyDigits rest).map (fun n => -(n : Int))
  | '+' :: rest => (pyDigits rest).map (fun n => (n : Int))
  | t => (pyDigits t).map (fun n => (n : Int))

/-- Python `f"{delta:0>2}"`: the decimal rendering left-padded with `0` to
width two. -/
def zfill2 (delta : Int) : String :=
  let s := toString delta
  if s.length < 2 then String.mk (List.replicate (2 - s.length) '0' ++ s.data) else s

/-- Function `convert_raw_division_to_age_group` from the source.  `year`/`month`
stand for `datetime.now()`.  A division whose first three characters
contain `U` is already an age group and is returned unchanged; otherwise
its first four characters are parsed as a birth year. -/
def convert_raw_division_to_age_group (year month : Nat) (division : String) :
    Except String String :=
  if ((division.data.take 3).contains 'U') = false then
    match pyInt (strTake division 4) with
    | none => .error ("Unable to parse division " ++ division)
    | some birth =>
      let delta : Int := (year : Int) - birth + (if 8 ≤ month then 1 else 0)
      .ok (zfill2 delta ++ "U")
  else .ok division

/-- The `GAME_MINUTES` table from the source. -/
def GAME_MINUTES : List (String × ℚ) :=
  [("07U", 40), ("08U", 40), ("09U", 50), ("10U", 50), ("12U", 60),
   ("14U", 70), ("15U", 80), ("16U", 80), ("18U", 90), ("19U", 90)]

/-- Function `is_referee` from the source: is the role a center referee. -/
def is_referee (role : String) : Bool := role == "CR" || role == "Referee"

/-- Python `round` applied to a `Decimal`: round to integer, ties to even. -/
def roundHalfEven (q : ℚ) : Int :=
  if q - ⌊q⌋ < 1/2 then ⌊q⌋
  else if 1/2 < q - ⌊q⌋ then ⌊q⌋ + 1
  else if ⌊q⌋ % 2 = 0 then ⌊q⌋ else ⌊q⌋ + 1

/-- Contribution of one role-count line in `get_minutes`: 100% for a center
referee, 80% when the role string contains `"AR"`, else 75%. -/
def roleContribution (minutes_per_game : ℚ) (role : String) (game_count : Nat) : ℚ :=
  if is_referee role then minutes_per_game * game_count
  else if strContainsSub role "AR" then minutes_per_game * game_count * 4 / 5
  else minutes_per_game * game_count * 3 / 4

/-- Inner role loop of `get_minutes`. -/
def minutesForRoles (minutes_per_game : ℚ) : RoleType → ℚ
  | [] => 0
  | (role, game_count) :: rest =>
    roleContribution minutes_per_game role game_count + minutesForRoles minutes_per_game rest

/-- Division loop of `get_minutes`; a division absent from `GAME_MINUTES`
raises `KeyError`. -/
def minutesForDivisions : LevelType → Except String ℚ
  | [] => .ok 0
  | (division_label, division_dict) :: rest =>
    match lookupKey GAME_MINUTES division_label with
    | none => .error ("KeyError: division " ++ division_label)
    | some minutes_per_game =>
      match minutesForDivisions rest with
      | .error e => .error e
      | .ok r => .ok (minutesForRoles minutes_per_game division_dict + r)

/-- Season loop of `get_minutes`. -/
def minutesForSeasons : RegularSeasonOrTourneyType → Except String ℚ
  | [] => .ok 0
  | (_, event_dict) :: rest =>
    match minutesForDivisions event_dict with
    | .error e => .error e
    | .ok q =>
      match minutesForSeasons rest with
      | .error e => .error e
      | .ok r => .ok (q + r)

/-- Function `get_minutes` from the source (the annotation there says
`UserTotalsType`, but every call site passes one person's
`RegularSeasonOrTourneyType` value, which is what the body iterates). -/
def get_minutes (totals : RegularSeasonOrTourneyType) : Except String Int :=
  match minutesForSeasons totals with
  | .error e => .error e
  | .ok result => .ok (roundHalfEven result)

/-- Sum of the counts of one role table. -/
def roleSum (rt : RoleType) : Nat := (rt.map (fun p => p.2)).sum

/-- Function `basic_score` from the source: one point per game. -/
def basic_score (user_totals : RegularSeasonOrTourneyType) : Nat :=
  (user_totals.map (fun s => (s.2.map (fun d => roleSum d.2)).sum)).sum

/-- The base-score-per-division table shared (as a repeated literal) by the
three boosted scorers. -/
def base_score : List (String × Nat) :=
  [("07U", 1), ("08U", 1), ("09U", 2), ("10U", 2), ("12U", 3),
   ("14U", 4), ("15U", 5), ("16U", 5), ("18U", 6), ("19U", 6)]

/-- Division loop of `division_boost_score`. -/
def divisionScoreDivs (year month : Nat) : LevelType → Except String Nat
  | [] => .ok 0
  | (division, role_totals) :: rest =>
    match convert_raw_division_to_age_group year month division with
    | .error e => .error e
    | .ok nd =>
      match lookupKey base_score (strTake nd 3) with
      | none => .error ("KeyError: division " ++ strTake nd 3)
      | some base =>
        match divisionScoreDivs year month rest with
        | .error e => .error e
        | .ok r => .ok ((role_totals.map (fun p => p.2 * base)).sum + r)

/-- Season loop of `division_boost_score`. -/
def divisionScoreSeasons (year month : Nat) : RegularSeasonOrTourneyType → Except String Nat
  | [] => .ok 0
  | (_, event_totals) :: rest =>
    match divisionScoreDivs year month event_totals with
    | .error e => .error e
    | .ok q =>
      match divisionScoreSeasons year month rest with
      | .error e => .error e
      | .ok r => .ok (q + r)

/-- Function `division_boost_score` from the source. -/
def division_boost_score (year month : Nat) (user_totals : RegularSeasonOrTourneyType) :
    Except String Nat :=
  divisionScoreSeasons year month user_totals

/-- Division loop of `division_and_role_boost_score`: a center referee
counts double. -/
def darDivs (year month : Nat) : LevelType → Except String Nat
  | [] => .ok 0
  | (division, role_totals) :: rest =>
    match convert_raw_division_to_age_group year month division with
    | .error e => .error e
    | .ok nd =>
      match lookupKey base_score (strTake nd 3) with
      | none => .error ("KeyError: division " ++ strTake nd 3)
      | some base =>
        match darDivs year month rest with
        | .error e => .error e
        | .ok r =>
          .ok ((role_totals.map
                (fun p => p.2 * base * (if is_referee p.1 then 2 else 1))).sum + r)

/-- Season loop of `division_and_role_boost_score`. -/
def darSeasons (year month : Nat) : RegularSeasonOrTourneyType → Except String Nat
  | [] => .ok 0
  | (_, event_totals) :: rest =>
    match darDivs year month event_totals with
    | .error e => .error e
    | .ok q =>
      match darSeasons year month rest with
      | .error e => .error e
      | .ok r => .ok (q + r)

/-- Function `division_and_role_boost_score` from the source. -/
def division_and_role_boost_score (year month : Nat)
    (user_totals : RegularSeasonOrTourneyType) : Except String Nat :=
  darSeasons year month user_totals

/-- Division loop of `division_tourney_and_role_boost_score`, given the
season's tournament modifier. -/
def dtrDivs (year month tournament_mod : Nat) : LevelType → Except String Nat
  | [] => .ok 0
  | (division, role_totals) :: rest =>
    match convert_raw_division_to_age_group year month division with
    | .error e => .error e
    | .ok nd =>
      match lookupKey base_score (strTake nd 3) with
      | none => .error ("KeyError: division " ++ strTake nd 3)
      | some base =>
        match dtrDivs year month tournament_mod rest with
        | .error e => .error e
        | .ok r =>
          .ok ((role_totals.map
                (fun p => p.2 * base * (if is_referee p.1 then 2 else 1)
                  * tournament_mod)).sum + r)

/-- Season loop of `division_tourney_and_role_boost_score`: a Tournament
season counts double. -/
def dtrSeasons (year month : Nat) : RegularSeasonOrTourneyType → Except String Nat
  | [] => .ok 0
  | (season_type, event_totals) :: rest =>
    match dtrDivs year month (if season_type = "Tournament" then 2 else 1) event_totals with
    | .error e => .error e
    | .ok q =>
      match dtrSeasons year month rest with
      | .error e => .error e
      | .ok r => .ok (q + r)

/-- Function `division_tourney_and_role_boost_score` from the source. -/
def division_tourney_and_role_boost_score (year month : Nat)
    (user_totals : RegularSeasonOrTourneyType) : Except String Nat :=
  dtrSeasons year month user_totals

/-- A resolved roster entry, as appended to `game["refs"]`. -/
structure RosterEntry where
  user_id : String
  first_name : String
  last_name : String
  role : String
  deriving DecidableEq

/-- A `game_assignment` entity from the `included` list. -/
structure Assignment where
  id : String
  external_game_id : String
  official_label_col : Nat
  status : String
  event_role_id : String
  deriving DecidableEq

/-- An `event_role` entity: it names its user by numeric id. -/
structure EventRole where
  id : String
  user_id : Nat
  deriving DecidableEq

/-- A `user` entity. -/
structure User where
  id : String
  first_name : String
  last_name : String
  deriving DecidableEq

/-- A `game_level` entity: division code, schedule name, and the label
table mapping an assignment's column index to a role string. -/
structure GameLevel where
  id : String
  game_level : String
  schedule_name : String
  labels : List (Nat × String)
  deriving DecidableEq

/-- A game entity from a document's `data` list. -/
structure RawGame where
  id : String
  status : String
  game_level_id : String
  assignment_ids : List String
  deriving DecidableEq

/-- One entry of a document's `included` list; `other` stands for an
unrecognized `type` tag. -/
inductive IncludedEntity where
  | assignment (a : Assignment)
  | event_role (e : EventRole)
  | user (u : User)
  | game_level (g : GameLevel)
  | other (ty : String)
  deriving DecidableEq

/-- One parsed `games*.json` document (documents that fail to parse are
skipped by the source before this point). -/
structure InputDocument where
  fname : String
  data : List RawGame
  included : List IncludedEntity
  deriving DecidableEq

/-- The four per-type lookup tables built from the `included` lists. -/
structure Tables where
  game_assignments : List (String × Assignment)
  event_roles : List (String × EventRole)
  users : List (String × User)
  game_levels : List (String × GameLevel)
  deriving DecidableEq

/-- A game after roster resolution.  `none` fields model dict keys that
were never written (a cancelled/postponed game is skipped whole; `refs`
stays absent when no accepted assignment resolved). -/
structure ResolvedGame where
  raw : RawGame
  division : Option String
  is_tournament : Option Bool
  refs : Option (List RosterEntry)
  deriving DecidableEq

/-- First loader loop over one document's `data`: merge games into the
global table, failing on a duplicate game id. -/
def addGames (fname : String) : List RawGame → List (String × RawGame) →
    Except String (List (String × RawGame))
  | [], games => .ok games
  | game :: rest, games =>
    if hasKey games game.id then
      .error ("Found duplicate game ID " ++ game.id ++ " in " ++ fname)
    else addGames fname rest (games ++ [(game.id, game)])

/-- Second loader loop over one document's `included`: partition entities
into the typed tables, failing on an unknown type. -/
def addIncluded : List IncludedEntity → Tables → Except String Tables
  | [], t => .ok t
  | .assignment a :: rest, t =>
    addIncluded rest { t with game_assignments := setKey t.game_assignments a.id a }
  | .event_role e :: rest, t =>
    addIncluded rest { t with event_roles := setKey t.event_roles e.id e }
  | .user u :: rest, t =>
    addIncluded rest { t with users := setKey t.users u.id u }
  | .game_level g :: rest, t =>
    addIncluded rest { t with game_levels := setKey t.game_levels g.id g }
  | .other ty :: _, _ => .error ("unknown relationship type " ++ ty)

/-- Document loop of `load_games`: each document's games, then its
included entities. -/
def loadDocs : List InputDocument → List (String × RawGame) → Tables →
    Except String (List (String × RawGame) × Tables)
  | [], games, tables => .ok (games, tables)
  | doc :: rest, games, tables =>
    match addGames doc.fname doc.data games with
    | .error e => .error e
    | .ok games' =>
      match addIncluded doc.included tables with
      | .error e => .error e
      | .ok tables' => loadDocs rest games' tables'

/-- Assignment loop of `load_games` for one game.  Order follows the
source: assignment lookup, the game-id assertion, the role lookup in the
level's label table, and only then the `accepted`-status check; the roster
entry append reproduces the try/except initialisation of `refs`. -/
def resolveAssignmentIds (tables : Tables) (game_id : String) (labels : List (Nat × String)) :
    List String → Option (List RosterEntry) → Except String (Option (List RosterEntry))
  | [], refs => .ok refs
  | assignment_id :: rest, refs =>
    match lookupKey tables.game_assignments assignment_id with
    | none => .error ("KeyError: game_assignment " ++ assignment_id)
    | some assignment =>
      if assignment.external_game_id = game_id then
        match lookupKey labels assignment.official_label_col with
        | none => .error ("KeyError: official_label_col " ++ toString assignment.official_label_col)
        | some role =>
          if assignment.status = "accepted" then
            match lookupKey tables.event_roles assignment.event_role_id with
            | none => .error ("KeyError: event_role " ++ assignment.event_role_id)
            | some event_role =>
              match lookupKey tables.users (toString event_role.user_id) with
              | none => .error ("KeyError: user " ++ toString event_role.user_id)
              | some user =>
                resolveAssignmentIds tables game_id labels rest
                  (some ((refs.getD []) ++
                    [{ user_id := user.id, first_name := user.first_name,
                       last_name := user.last_name, role := role }]))
          else resolveAssignmentIds tables game_id labels rest refs
      else
        .error ("AssertionError: assignment " ++ assignment_id ++
          " does not belong to game " ++ game_id)

/-- Roster resolution for one game: cancelled/postponed games are skipped
whole (no derived fields), otherwise the game level is resolved, the
division normalized (`U8C` → `08UC`), the tournament flag computed from
the schedule name, and the assignments walked. -/
def resolveOneGame (tables : Tables) (game : RawGame) : Except String ResolvedGame :=
  if game.status = "cancelled" ∨ game.status = "postponed" then
    .ok { raw := game, division := none, is_tournament := none, refs := none }
  else
    match lookupKey tables.game_levels game.game_level_id with
    | none => .error ("KeyError: game_level " ++ game.game_level_id)
    | some game_level =>
      let division := if game_level.game_level = "U8C" then "08UC" else game_level.game_level
      let is_tournament := strContainsSub (lowerStr game_level.schedule_name) "tourney"
      match resolveAssignmentIds tables game.id game_level.labels game.assignment_ids none with
      | .error e => .error e
      | .ok refs =>
        .ok { raw := game, division := some division,
              is_tournament := some is_tournament, refs := refs }

/-- Second loader phase: resolve every merged game in insertion order. -/
def resolveGames (tables : Tables) : List (String × RawGame) →
    Except String (List (String × ResolvedGame))
  | [] => .ok []
  | (game_id, game) :: rest =>
    match resolveOneGame tables game with
    | .error e => .error e
    | .ok rg =>
      match resolveGames tables rest with
      | .error e => .error e
      | .ok rs => .ok ((game_id, rg) :: rs)

/-- Function `load_games` from the source, over already-parsed documents. -/
def load_games (docs : List InputDocument) : Except String (List (String × ResolvedGame)) :=
  match loadDocs docs [] ⟨[], [], [], []⟩ with
  | .error e => .error e
  | .ok (games, tables) => resolveGames tables games

/-- One ledger increment
`totals[name][season_type][division][role] += 1`, auto-vivifying every
level like the nested defaultdict. -/
def bump4 (totals : UserTotalsType) (name season_type division role : String) : UserTotalsType :=
  updKey totals name [] (fun seasons =>
    updKey seasons season_type [] (fun divisions =>
      updKey divisions division [] (fun roles =>
        updKey roles role 0 (fun c => c + 1))))

/-- Display name of a roster entry: stripped first and last name joined by
one space. -/
def refDisplayName (r : RosterEntry) : String :=
  stripStr r.first_name ++ " " ++ stripStr r.last_name

/-- Roster loop of `assemble_totals`. -/
def addRefs (season_type division : String) : List RosterEntry → UserTotalsType → UserTotalsType
  | [], totals => totals
  | r :: rest, totals =>
    addRefs season_type division rest
      (bump4 totals (refDisplayName r) season_type division r.role)

/-- Game loop of `assemble_totals`: games without a (nonempty) roster are
skipped; the division key is the first three characters of the age-group
normalization of the game's division. -/
def assembleGames (year month : Nat) : List (String × ResolvedGame) → UserTotalsType →
    Except String UserTotalsType
  | [], totals => .ok totals
  | (_, game) :: rest, totals =>
    match game.refs with
    | none => assembleGames year month rest totals
    | some [] => assembleGames year month rest totals
    | some refs =>
      match game.division with
      | none => .error "KeyError: division"
      | some rawDivision =>
        match convert_raw_division_to_age_group year month rawDivision with
        | .error e => .error e
        | .ok nd =>
          match game.is_tournament with
          | none => .error "KeyError: is_tournament"
          | some tourney =>
            assembleGames year month rest
              (addRefs (if tourney then "Tournament" else "Regular Season")
                (strTake nd 3) refs totals)

/-- Function `assemble_totals` from the source. -/
def assemble_totals (year month : Nat) (games : List (String × ResolvedGame)) :
    Except String UserTotalsType :=
  assembleGames year month games []

/-- The `main` pipeline up to the ledger: `assemble_totals` applied to the
result of `load_games` (any loader error aborts first). -/
def main_totals (year month : Nat) (docs : List InputDocument) : Except String UserTotalsType :=
  match load_games docs with
  | .error e => .error e
  | .ok games => assemble_totals year month games

/-- A spreadsheet cell: the rows mix names, integer scores and the decimal
minutes value. -/
inductive Cell where
  | str (s : String)
  | int (n : Nat)
  | rat (q : ℚ)
  deriving DecidableEq

/-- Python `round(minutes, 1)`: round to one decimal place, ties to even. -/
def roundHalfEvenTenths (q : ℚ) : ℚ := (roundHalfEven (q * 10) : ℚ) / 10

/-- Python `sorted(d.items())` on a dict with (distinct) string keys. -/
def sortByKey {α : Type} (d : List (String × α)) : List (String × α) :=
  List.insertionSort (fun a b => a.1.data ≤ b.1.data) d

/-- The fixed leading columns of `get_headers_for_spreadsheet`. -/
def fixedHeaders : List String :=
  ["Name", "Basic score (1 per game)", "+1 point per age group",
   "+1 point per age group * 2 points for centering",
   "+1 point per age group * 2 points for centering * 2 for tournament"]

/-- Role loop of the dynamic-column write in
`format_user_totals_for_spreadsheet`. -/
def writeRoles (season_type division : String) : RoleType → List (String × Cell) →
    List (String × Cell)
  | [], row => row
  | (role, role_total) :: rest, row =>
    writeRoles season_type division rest
      (setKey row (season_type ++ " " ++ division ++ " " ++ role) (Cell.int role_total))

/-- Division loop of the dynamic-column write (divisions visited in sorted
order, re-normalized). -/
def writeDivisions (year month : Nat) (season_type : String) : LevelType →
    List (String × Cell) → Except String (List (String × Cell))
  | [], row => .ok row
  | (division, division_totals) :: rest, row =>
    match convert_raw_division_to_age_group year month division with
    | .error e => .error e
    | .ok nd =>
      writeDivisions year month season_type rest (writeRoles season_type nd division_totals row)

/-- Season loop of the dynamic-column write. -/
def writeSeasons (year month : Nat) : RegularSeasonOrTourneyType →
    List (String × Cell) → Except String (List (String × Cell))
  | [], row => .ok row
  | (season_type, season_totals) :: rest, row =>
    match writeDivisions year month season_type (sortByKey season_totals) row with
    | .error e => .error e
    | .ok row' => writeSeasons year month rest row'

/-- Function `format_user_totals_for_spreadsheet` from the source: fixed cells, then
a zero default for every header not yet present, then the person's own
season/division/role combinations. -/
def format_user_totals_for_spreadsheet (year month : Nat) (user : String)
    (totals : RegularSeasonOrTourneyType) (minutes : ℚ) (headers : List String) :
    Except String (List (String × Cell)) :=
  match division_boost_score year month totals with
  | .error e => .error e
  | .ok db =>
    match division_and_role_boost_score year month totals with
    | .error e => .error e
    | .ok dar =>
      match division_tourney_and_role_boost_score year month totals with
      | .error e => .error e
      | .ok dtr =>
        let base : List (String × Cell) :=
          [("Name", .str user),
           ("Total minutes", .rat (roundHalfEvenTenths minutes)),
           ("Basic score (1 per game)", .int (basic_score totals)),
           ("+1 point per age group", .int db),
           ("+1 point per age group * 2 points for centering", .int dar),
           ("+1 point per age group * 2 points for centering * 2 for tournament", .int dtr)]
        let withDefaults := headers.foldl
          (fun row h => if hasKey row h then row else row ++ [(h, Cell.int 0)]) base
        writeSeasons year month totals withDefaults

/-- Role loop of `get_headers_for_spreadsheet`; the growing `extra` list
models the Python set (membership insert keeps it duplicate-free). -/
def collectRoles (season_type division : String) : RoleType → List String → List String
  | [], extra => extra
  | (role, _) :: rest, extra =>
    collectRoles season_type division rest
      (if extra.contains (season_type ++ " " ++ division ++ " " ++ role) then extra
       else extra ++ [season_type ++ " " ++ division ++ " " ++ role])

/-- Division loop of `get_headers_for_spreadsheet`. -/
def collectDivisions (year month : Nat) (season_type : String) : LevelType → List String →
    Except String (List String)
  | [], extra => .ok extra
  | (division, division_totals) :: rest, extra =>
    match convert_raw_division_to_age_group year month division with
    | .error e => .error e
    | .ok nd =>
      collectDivisions year month season_type rest (collectRoles season_type nd division_totals extra)

/-- Season loop of `get_headers_for_spreadsheet`. -/
def collectSeasons (year month : Nat) : RegularSeasonOrTourneyType → List String →
    Except String (List String)
  | [], extra => .ok extra
  | (season_type, season_totals) :: rest, extra =>
    match collectDivisions year month season_type (sortByKey season_totals) extra with
    | .error e => .error e
    | .ok extra' => collectSeasons year month rest extra'

/-- Person loop of `get_headers_for_spreadsheet`. -/
def collectUsers (year month : Nat) : UserTotalsType → List String → Except String (List String)
  | [], extra => .ok extra
  | (_, totals) :: rest, extra =>
    match collectSeasons year month totals extra with
    | .error e => .error e
    | .ok extra' => collectUsers year month rest extra'

/-- Function `get_headers_for_spreadsheet` from the source: the fixed columns
followed by the lexicographically sorted union of the observed
season/division/role combinations of the whole ledger. -/
def get_headers_for_spreadsheet (year month : Nat) (overall_totals : UserTotalsType) :
    Except String (List String) :=
  match collectUsers year month overall_totals [] with
  | .error e => .error e
  | .ok extra =>
    .ok (fixedHeaders ++ List.insertionSort (fun a b : String => a.data ≤ b.data) extra)

/-- Game level used by the concrete scenarios: a non-tournament 10U level
whose label table maps column 0 to "Referee". -/
def c1Level : GameLevel :=
  { id := "lv1", game_level := "10U", schedule_name := "Fall 2024 Regular",
    labels := [(0, "Referee")] }

/-- Scenario document: one scheduled game with a single accepted "Referee"
assignment. -/
def c1Doc : InputDocument :=
  { fname := "games1.json",
    data := [{ id := "g1", status := "scheduled", game_level_id := "lv1",
               assignment_ids := ["a1"] }],
    included := [.game_level c1Level,
                 .assignment { id := "a1", external_game_id := "g1", official_label_col := 0,
                               status := "accepted", event_role_id := "er1" },
                 .event_role { id := "er1", user_id := 42 },
                 .user { id := "42", first_name := "Jane", last_name := "Doe" }] }

/-- The per-person ledger entry the scenario document produces. -/
def c1Totals : RegularSeasonOrTourneyType := [("Regular Season", [("10U", [("Referee", 1)])])]

/-- Scenario input for the label-table ordering question: a single
non-accepted assignment whose column index (3) is missing from the level's
label table. -/
def c2Doc : InputDocument :=
  { fname := "games1.json",
    data := [{ id := "g1", status := "scheduled", game_level_id := "lv1",
               assignment_ids := ["a1"] }],
    included := [.game_level { id := "lv1", game_level := "10U",
                               schedule_name := "Fall 2024 Regular", labels := [] },
                 .assignment { id := "a1", external_game_id := "g1", official_label_col := 3,
                               status := "declined", event_role_id := "er1" }] }

/-- First document of the duplicate-id scenario: it also carries an
included entity of unknown type. -/
def c4DocA : InputDocument :=
  { fname := "games1.json",
    data := [{ id := "g1", status := "scheduled", game_level_id := "lv1",
               assignment_ids := [] }],
    included := [.other "venue"] }

/-- Second document of the duplicate-id scenario: same game id `g1`. -/
def c4DocB : InputDocument :=
  { fname := "games2.json",
    data := [{ id := "g1", status := "scheduled", game_level_id := "lv1",
               assignment_ids := [] }],
    included := [] }

/-- Scenario document with a postponed game (`g1`) next to a normal one
(`g2`), both with an accepted assignment. -/
def c5Doc : InputDocument :=
  { fname := "games1.json",
    data := [{ id := "g1", status := "postponed", game_level_id := "lv1",
               assignment_ids := ["a1"] },
             { id := "g2", status := "scheduled", game_level_id := "lv1",
               assignment_ids := ["a2"] }],
    included := [.game_level c1Level,
                 .assignment { id := "a1", external_game_id := "g1", official_label_col := 0,
                               status := "accepted", event_role_id := "er1" },
                 .assignment { id := "a2", external_game_id := "g2", official_label_col := 0,
                               status := "accepted", event_role_id := "er1" },
                 .event_role { id := "er1", user_id := 42 },
                 .user { id := "42", first_name := "Jane", last_name := "Doe" }] }

/-- The ledger entry of the tournament variant of the scenario. -/
def c8Tournament : RegularSeasonOrTourneyType := [("Tournament", [("10U", [("Referee", 1)])])]

/-- The ledger entry of the regular-season variant of the scenario. -/
def c8Regular : RegularSeasonOrTourneyType := [("Regular Season", [("10U", [("Referee", 1)])])]

/-- Assignment table used by the C2 witness: one declined assignment. -/
def c2WitnessTables : Tables :=
  { game_assignments :=
      [("a1", { id := "a1", external_game_id := "g1", official_label_col := 3,
                status := "declined", event_role_id := "er9" })],
    event_roles := [], users := [], game_levels := [] }

/-- The effect of one game on the ledger accumulator in `assemble_totals`. -/
def gameStep (year month : Nat) (game : ResolvedGame) (totals : UserTotalsType) :
    Except String UserTotalsType :=
  match game.refs with
  | none => .ok totals
  | some [] => .ok totals
  | some refs =>
    match game.division with
    | none => .error "KeyError: division"
    | some rawDivision =>
      match convert_raw_division_to_age_group year month rawDivision with
      | .error e => .error e
      | .ok nd =>
        match game.is_tournament with
        | none => .error "KeyError: is_tournament"
        | some tourney =>
          .ok (addRefs (if tourney then "Tournament" else "Regular Season")
                (strTake nd 3) refs totals)

/-- The postponed game of the C5 scenario after loading: no derived
fields. -/
def c5G1 : ResolvedGame :=
  ⟨{ id := "g1", status := "postponed", game_level_id := "lv1", assignment_ids := ["a1"] },
   none, none, none⟩

/-- The scheduled game of the C5 scenario after loading. -/
def c5G2 : ResolvedGame :=
  ⟨{ id := "g2", status := "scheduled", game_level_id := "lv1", assignment_ids := ["a2"] },
   some "10U", some false,
   some [{ user_id := "42", first_name := "Jane", last_name := "Doe", role := "Referee" }]⟩

/-- The resolved game table of the C5 scenario. -/
def c5Games : List (String × ResolvedGame) := [("g1", c5G1), ("g2", c5G2)]

/-- Predicate: `dv` occurs as a division key (third nesting level) of the ledger. -/
def DivKeyIn (dv : String) (t : UserTotalsType) : Prop :=
  ∃ ns ∈ t, ∃ sl ∈ ns.2, ∃ dr ∈ sl.2, dr.1 = dv

/-- The message of the duplicate-game-id error. -/
def dupGameMsg (gid fname : String) : String :=
  "Found duplicate game ID " ++ gid ++ " in " ++ fname

/-- All game ids appearing in the documents' `data` lists, in processing
order. -/
def docGameIds (docs : List InputDocument) : List String :=
  (docs.map (fun d => d.data.map RawGame.id)).flatten

/-- Is the included entity of one of the four known types? -/
def knownEntity : IncludedEntity → Bool
  | .other _ => false
  | _ => true

/-- Do all included entities of all documents have known types? -/
def knownIncludedTypes (docs : List InputDocument) : Bool :=
  docs.all (fun d => d.included.all knownEntity)

/-- First document of the clean duplicate-id scenario. -/
def c4DocC : InputDocument :=
  { fname := "games3.json",
    data := [{ id := "g7", status := "scheduled", game_level_id := "lv1",
               assignment_ids := [] }],
    included := [] }

/-- Second document of the clean duplicate-id scenario: same game id. -/
def c4DocD : InputDocument :=
  { fname := "games4.json",
    data := [{ id := "g7", status := "scheduled", game_level_id := "lv1",
               assignment_ids := [] }],
    included := [] }

instance : IsTotal String (fun a b => a.data ≤ b.data) :=
  ⟨fun a b => le_total a.data b.data⟩

instance : IsTrans String (fun a b => a.data ≤ b.data) :=
  ⟨fun _ _ _ h₁ h₂ => le_trans h₁ h₂⟩

instance : IsAntisymm String (fun a b => a.data ≤ b.data) :=
  ⟨fun a b h₁ h₂ => by
    cases a
    cases b
    simp only at h₁ h₂ ⊢
    exact congrArg String.mk (le_antisymm h₁ h₂)⟩

/-- Predicate: `x` is an observed combination `"<season> <normalized division> <role>"`
of one division's role table. -/
def DivCombo (year month : Nat) (st : String) (lvls : LevelType) (x : String) : Prop :=
  ∃ p ∈ lvls, ∃ nd, convert_raw_division_to_age_group year month p.1 = .ok nd ∧
    ∃ q ∈ p.2, x = st ++ " " ++ nd ++ " " ++ q.1

/-- Every division of the level table normalizes successfully. -/
def divsAllOk (year month : Nat) (lvls : LevelType) : Prop :=
  ∀ p ∈ lvls, ∃ nd, convert_raw_division_to_age_group year month p.1 = .ok nd

/-- Predicate: `x` is an observed combination of one person's ledger entry. -/
def PersonCombo (year month : Nat) (totals : RegularSeasonOrTourneyType) (x : String) : Prop :=
  ∃ s ∈ totals, DivCombo year month s.1 s.2 x

/-- Every division of one person's ledger entry normalizes successfully. -/
def totalsAllOk (year month : Nat) (totals : RegularSeasonOrTourneyType) : Prop :=
  ∀ s ∈ totals, divsAllOk year month s.2

/-- Predicate: `x` is an observed combination somewhere in the whole ledger. -/
def LedgerCombo (year month : Nat) (overall : UserTotalsType) (x : String) : Prop :=
  ∃ u ∈ overall, PersonCombo year month u.2 x

/-- Every division anywhere in the ledger normalizes successfully. -/
def ledgerAllOk (year month : Nat) (overall : UserTotalsType) : Prop :=
  ∀ u ∈ overall, totalsAllOk year month u.2

/-- A two-person ledger for the export scenario. -/
def c9L1 : UserTotalsType := [("A", c1Totals), ("B", c8Tournament)]

/-- The same ledger with the two people swapped. -/
def c9L2 : UserTotalsType := [("B", c8Tournament), ("A", c1Totals)]

/-- The header row both ledger orders produce. -/
def c9Headers : List String :=
  fixedHeaders ++ ["Regular Season 10U Referee", "Tournament 10U Referee"]

/-- Person A's shaped row: a zero default for the dynamic column only
person B introduced. -/
def c9Row : List (String × Cell) :=
  [("Name", .str "A"),
   ("Total minutes", .rat (roundHalfEvenTenths 50)),
   ("Basic score (1 per game)", .int 1),
   ("+1 point per age group", .int 2),
   ("+1 point per age group * 2 points for centering", .int 4),
   ("+1 point per age group * 2 points for centering * 2 for tournament", .int 4),
   ("Regular Season 10U Referee", .int 1),
   ("Tournament 10U Referee", .int 0)]

/-- Game level with the irregular exported division code `U8C`. -/
def c3Level : GameLevel :=
  { id := "lv1", game_level := "U8C", schedule_name := "Fall 2024 Regular",
    labels := [(0, "Referee")] }

/-- Scenario document whose game sits on the `U8C` level. -/
def c3Doc : InputDocument :=
  { fname := "games1.json",
    data := [{ id := "g1", status := "scheduled", game_level_id := "lv1",
               assignment_ids := ["a1"] }],
    included := [.game_level c3Level,
                 .assignment { id := "a1", external_game_id := "g1", official_label_col := 0,
                               status := "accepted", event_role_id := "er1" },
                 .event_role { id := "er1", user_id := 42 },
                 .user { id := "42", first_name := "Jane", last_name := "Doe" }] }


example : convert_raw_division_to_age_group 2024 5 "10U" = .ok "10U" := rfl

example : convert_raw_division_to_age_group 2024 5 "2014" = .ok "10U" := rfl

example : convert_raw_division_to_age_group 2024 9 "2014" = .ok "11U" := rfl

example : convert_raw_division_to_age_group 2024 5 "junk" = .error "Unable to parse division junk" := rfl

example : basic_score [("Regular Season", [("10U", [("Referee", 1)])])] = 1 := rfl

example : division_boost_score 2024 5 [("Regular Season", [("10U", [("Referee", 1)])])] = .ok 2 := rfl

example : division_and_role_boost_score 2024 5 [("Regular Season", [("10U", [("Referee", 1)])])] = .ok 4 := rfl

example : division_tourney_and_role_boost_score 2024 5 [("Tournament", [("10U", [("Referee", 1)])])] = .ok 8 := rfl

example : get_minutes [("Regular Season", [("10U", [("Referee", 1)])])] = .ok 50 := by
  simp [get_minutes, minutesForSeasons, minutesForDivisions, minutesForRoles,
    roleContribution, is_referee, lookupKey, GAME_MINUTES, roundHalfEven]

example : get_minutes [("Regular Season", [("18U", [("AR", 1)])])] = .ok 72 := by
  simp [get_minutes, minutesForSeasons, minutesForDivisions, minutesForRoles,
    roleContribution, is_referee, strContainsSub, hasSub, leadsWith, lookupKey,
    GAME_MINUTES, roundHalfEven]
  norm_num

example (year month : Nat) :
    main_totals year month [c1Doc] = .ok [("Jane Doe", c1Totals)] := rfl

example : load_games [c2Doc] = .error "KeyError: official_label_col 3" := rfl

example : load_games [c4DocA, c4DocB] = .error "unknown relationship type venue" := rfl

example (year month : Nat) :
    main_totals year month [c5Doc] = .ok [("Jane Doe", c1Totals)] := rfl

example (year month : Nat) :
    main_totals year month [c3Doc] =
      .ok [("Jane Doe", [("Regular Season", [("08U", [("Referee", 1)])])])] := rfl

/-- C1: for a ledger built from one resolved game that is not
tournament-flagged, in division "10U", with exactly one roster entry whose
role is "Referee", `basic_score` returns 1, `division_boost_score` 2,
`division_and_role_boost_score` 4, `division_tourney_and_role_boost_score`
4, and `get_minutes` 50 — for every current date. -/
theorem spec_C1 (year month : Nat) :
    main_totals year month [c1Doc] = .ok [("Jane Doe", c1Totals)] ∧
    basic_score c1Totals = 1 ∧
    division_boost_score year month c1Totals = .ok 2 ∧
    division_and_role_boost_score year month c1Totals = .ok 4 ∧
    division_tourney_and_role_boost_score year month c1Totals = .ok 4 ∧
    get_minutes c1Totals = .ok 50 := by
  refine ⟨rfl, rfl, rfl, rfl, rfl, ?_⟩
  simp [c1Totals, get_minutes, minutesForSeasons, minutesForDivisions, minutesForRoles,
    roleContribution, is_referee, lookupKey, GAME_MINUTES, roundHalfEven]

/-- C8: the single "Referee"-in-"10U" ledger entry scores 8 under
`division_tourney_and_role_boost_score` when placed under season type
"Tournament", double its value 4 under "Regular Season", while the three
other scorers are unchanged by the season-type placement. -/
theorem spec_C8 (year month : Nat) :
    division_tourney_and_role_boost_score year month c8Tournament = .ok 8 ∧
    division_tourney_and_role_boost_score year month c8Regular = .ok 4 ∧
    basic_score c8Tournament = basic_score c8Regular ∧
    division_boost_score year month c8Tournament = division_boost_score year month c8Regular ∧
    division_and_role_boost_score year month c8Tournament =
      division_and_role_boost_score year month c8Regular :=
  ⟨rfl, rfl, rfl, rfl, rfl⟩

/-- C2 counterexample: a single non-accepted (declined) assignment whose
column index is missing from the label table makes `load_games` fail with
the label-table lookup error — the label table is consulted before the
status check, contrary to the claim. -/
theorem spec_C2_cex :
    (c2Doc.included.all (fun i =>
      match i with
      | IncludedEntity.assignment a => !(a.status == "accepted")
      | _ => true)) = true ∧
    load_games [c2Doc] = .error "KeyError: official_label_col 3" :=
  ⟨rfl, rfl⟩

/-- C2 (amended): during roster resolution the role is resolved via the
level's label table before the status check.  A non-accepted assignment
whose label lookup succeeds is then skipped (its event role and user are
never consulted); a non-accepted assignment whose column index is missing
from the label table is a fatal lookup failure. -/
theorem spec_C2 :
    (∀ tables game_id labels assignment_id rest refs a role,
      lookupKey tables.game_assignments assignment_id = some a →
      a.external_game_id = game_id →
      lookupKey labels a.official_label_col = some role →
      a.status ≠ "accepted" →
      resolveAssignmentIds tables game_id labels (assignment_id :: rest) refs =
        resolveAssignmentIds tables game_id labels rest refs) ∧
    (∀ tables game_id labels assignment_id rest refs a,
      lookupKey tables.game_assignments assignment_id = some a →
      a.external_game_id = game_id →
      lookupKey labels a.official_label_col = none →
      resolveAssignmentIds tables game_id labels (assignment_id :: rest) refs =
        .error ("KeyError: official_label_col " ++ toString a.official_label_col)) := by
  constructor
  · intro tables game_id labels assignment_id rest refs a role hA hExt hRole hStatus
    simp [resolveAssignmentIds, hA, hExt, hRole, hStatus]
  · intro tables game_id labels assignment_id rest refs a hA hExt hRole
    simp [resolveAssignmentIds, hA, hExt, hRole]

/-- C2 witness: the amended statement applied to the concrete declined
assignment, with a present and with a missing label-table entry. -/
theorem spec_C2_witness :
    resolveAssignmentIds c2WitnessTables "g1" [(3, "AR")] ["a1"] none =
      resolveAssignmentIds c2WitnessTables "g1" [(3, "AR")] [] none ∧
    resolveAssignmentIds c2WitnessTables "g1" [] ["a1"] none =
      .error "KeyError: official_label_col 3" :=
  ⟨spec_C2.1 c2WitnessTables "g1" [(3, "AR")] "a1" [] none _ "AR" rfl rfl rfl (by decide),
   spec_C2.2 c2WitnessTables "g1" [] "a1" [] none _ rfl rfl rfl⟩

/-- C6: for a division with no `U` among its first three characters whose
first four characters parse as an integer birth year, the result is
`current_year - birth_year` (plus one in August or later) zero-padded to
two digits and suffixed with `U`; if the first four characters do not
parse, the unparseable-division error is raised. -/
theorem spec_C6 (year month : Nat) (division : String)
    (hU : ((division.data.take 3).contains 'U') = false) :
    (∀ birth : Int, pyInt (strTake division 4) = some birth →
      convert_raw_division_to_age_group year month division =
        .ok (zfill2 ((year : Int) - birth + (if 8 ≤ month then 1 else 0)) ++ "U")) ∧
    (pyInt (strTake division 4) = none →
      convert_raw_division_to_age_group year month division =
        .error ("Unable to parse division " ++ division)) := by
  constructor
  · intro birth hp
    unfold convert_raw_division_to_age_group
    rw [if_pos hU, hp]
  · intro hp
    unfold convert_raw_division_to_age_group
    rw [if_pos hU, hp]

/-- C6 witness: the birth year 2014 in March and in September 2025, and an
unparseable division. -/
theorem spec_C6_witness :
    convert_raw_division_to_age_group 2025 3 "2014" =
      .ok (zfill2 ((2025 : Int) - 2014 + (if 8 ≤ (3 : Nat) then 1 else 0)) ++ "U") ∧
    convert_raw_division_to_age_group 2025 9 "2014" =
      .ok (zfill2 ((2025 : Int) - 2014 + (if 8 ≤ (9 : Nat) then 1 else 0)) ++ "U") ∧
    convert_raw_division_to_age_group 2025 3 "abcd" =
      .error ("Unable to parse division " ++ "abcd") :=
  ⟨(spec_C6 2025 3 "2014" rfl).1 2014 rfl,
   (spec_C6 2025 9 "2014" rfl).1 2014 rfl,
   (spec_C6 2025 3 "abcd" rfl).2 rfl⟩

/-- C10: each role-count line of `get_minutes` contributes
`minutes_per_game * count` for a center referee ("CR"/"Referee"),
`* 4 / 5` when the role merely contains "AR", and `* 3 / 4` otherwise,
accumulated exactly in `ℚ` and finally rounded half-to-even; a single "AR"
game in an 18U division yields 72. -/
theorem spec_C10 :
    (∀ (mpg : ℚ) (role : String) (count : Nat), is_referee role = true →
      roleContribution mpg role count = mpg * count) ∧
    (∀ (mpg : ℚ) (role : String) (count : Nat), is_referee role = false →
      strContainsSub role "AR" = true →
      roleContribution mpg role count = mpg * count * 4 / 5) ∧
    (∀ (mpg : ℚ) (role : String) (count : Nat), is_referee role = false →
      strContainsSub role "AR" = false →
      roleContribution mpg role count = mpg * count * 3 / 4) ∧
    (∀ (mpg : ℚ) (role : String) (count : Nat) (rest : RoleType),
      minutesForRoles mpg ((role, count) :: rest) =
        roleContribution mpg role count + minutesForRoles mpg rest) ∧
    (∀ (totals : RegularSeasonOrTourneyType) (q : ℚ),
      minutesForSeasons totals = .ok q → get_minutes totals = .ok (roundHalfEven q)) ∧
    roundHalfEven (5/2) = 2 ∧ roundHalfEven (7/2) = 4 ∧
    get_minutes [("Regular Season", [("18U", [("AR", 1)])])] = .ok 72 := by
  refine ⟨?_, ?_, ?_, ?_, ?_, ?_, ?_, ?_⟩
  · intro mpg role count h
    simp [roleContribution, h]
  · intro mpg role count h hAR
    simp [roleContribution, h, hAR]
  · intro mpg role count h hAR
    simp [roleContribution, h, hAR]
  · intro mpg role count rest
    rfl
  · intro totals q h
    simp [get_minutes, h]
  · norm_num [roundHalfEven]
  · norm_num [roundHalfEven]
  · simp [get_minutes, minutesForSeasons, minutesForDivisions, minutesForRoles,
      roleContribution, is_referee, strContainsSub, hasSub, leadsWith, lookupKey,
      GAME_MINUTES, roundHalfEven]
    norm_num

/-- C10 witness: the three participation fractions at concrete inputs and
the rounding composition at a concrete ledger entry. -/
theorem spec_C10_witness :
    roleContribution 50 "Referee" 2 = (50 : ℚ) * ((2 : Nat) : ℚ) ∧
    roleContribution 90 "AR2" 1 = (90 : ℚ) * ((1 : Nat) : ℚ) * 4 / 5 ∧
    roleContribution 60 "4th Official" 1 = (60 : ℚ) * ((1 : Nat) : ℚ) * 3 / 4 ∧
    get_minutes c1Totals = .ok (roundHalfEven 50) := by
  refine ⟨spec_C10.1 50 "Referee" 2 rfl, spec_C10.2.1 90 "AR2" 1 rfl rfl,
    spec_C10.2.2.1 60 "4th Official" 1 rfl rfl, spec_C10.2.2.2.2.1 c1Totals 50 ?_⟩
  simp [c1Totals, minutesForSeasons, minutesForDivisions, minutesForRoles,
    roleContribution, is_referee, lookupKey, GAME_MINUTES]

/-- Every value of the shared base-score table is at least one. -/
theorem base_score_values_pos : ∀ p ∈ base_score, 1 ≤ p.2 := by decide

/-- A successful `lookupKey` returns an entry of the table. -/
theorem lookupKey_mem {κ α : Type} [DecidableEq κ] {d : List (κ × α)} {k : κ} {v : α}
    (h : lookupKey d k = some v) : (k, v) ∈ d := by
  induction d with
  | nil => simp [lookupKey] at h
  | cons p rest ih =>
    obtain ⟨k', v'⟩ := p
    by_cases hk : k' = k
    · subst hk
      simp [lookupKey] at h
      simp [h]
    · simp only [lookupKey, hk, if_false, if_neg hk] at h
      exact List.mem_cons_of_mem _ (ih h)

/-- A positive `hasKey` test yields a successful `lookupKey`. -/
theorem hasKey_lookupKey {κ α : Type} [DecidableEq κ] {d : List (κ × α)} {k : κ}
    (h : hasKey d k = true) : ∃ v, lookupKey d k = some v := by
  induction d with
  | nil => simp [hasKey] at h
  | cons p rest ih =>
    obtain ⟨k', v'⟩ := p
    by_cases hk : k' = k
    · exact ⟨v', by simp [lookupKey, hk]⟩
    · simp only [hasKey, List.any_cons, Bool.or_eq_true, decide_eq_true_eq] at h
      rcases h with h | h
      · exact absurd h hk
      · obtain ⟨v, hv⟩ := ih h
        exact ⟨v, by simp [lookupKey, hk, hv]⟩

/-- Division loop of C7: when every division of the level table normalizes
into the base-score table, the division-boosted sum is defined and bounds
the plain count sum. -/
theorem c7_divs (year month : Nat) (lvls : LevelType)
    (h : ∀ dv rt, (dv, rt) ∈ lvls →
      ∃ nd, convert_raw_division_to_age_group year month dv = .ok nd ∧
        hasKey base_score (strTake nd 3) = true) :
    ∃ n, divisionScoreDivs year month lvls = .ok n ∧
      (lvls.map (fun d => roleSum d.2)).sum ≤ n := by
  induction lvls with
  | nil => exact ⟨0, rfl, le_refl 0⟩
  | cons p rest ih =>
    obtain ⟨dv, rt⟩ := p
    obtain ⟨nd, hnd, hkey⟩ := h dv rt (List.mem_cons_self _ _)
    obtain ⟨base, hbase⟩ := hasKey_lookupKey hkey
    have hbase1 : 1 ≤ base := base_score_values_pos _ (lookupKey_mem hbase)
    obtain ⟨n, hn, hle⟩ := ih (fun dv' rt' hm => h dv' rt' (List.mem_cons_of_mem _ hm))
    refine ⟨(rt.map (fun p => p.2 * base)).sum + n, ?_, ?_⟩
    · simp [divisionScoreDivs, hnd, hbase, hn]
    · have hrt : roleSum rt ≤ (rt.map (fun p => p.2 * base)).sum := by
        unfold roleSum
        apply List.sum_le_sum
        intro p _
        exact Nat.le_mul_of_pos_right _ hbase1
      simpa using Nat.add_le_add hrt hle

/-- C7: whenever every division key of a per-person ledger entry
normalizes to a three-character prefix present in the base-score table
(whose values are all at least one), the division-boosted score is defined
and at least the basic score. -/
theorem spec_C7 (year month : Nat) (user_totals : RegularSeasonOrTourneyType)
    (h : ∀ st lvls, (st, lvls) ∈ user_totals → ∀ dv rt, (dv, rt) ∈ lvls →
      ∃ nd, convert_raw_division_to_age_group year month dv = .ok nd ∧
        hasKey base_score (strTake nd 3) = true) :
    ∃ n, division_boost_score year month user_totals = .ok n ∧
      basic_score user_totals ≤ n := by
  induction user_totals with
  | nil => exact ⟨0, rfl, le_refl 0⟩
  | cons p rest ih =>
    obtain ⟨st, lvls⟩ := p
    obtain ⟨n₁, hn₁, hle₁⟩ := c7_divs year month lvls (h st lvls (List.mem_cons_self _ _))
    obtain ⟨n₂, hn₂, hle₂⟩ :=
      ih (fun st' lvls' hm => h st' lvls' (List.mem_cons_of_mem _ hm))
    refine ⟨n₁ + n₂, ?_, ?_⟩
    · simp only [division_boost_score, divisionScoreSeasons, hn₁]
      simp only [division_boost_score] at hn₂
      simp [hn₂]
    · simp only [basic_score, List.map_cons, List.sum_cons]
      simp only [basic_score] at hle₂
      exact Nat.add_le_add hle₁ hle₂

/-- C7 witness: the inequality at a concrete two-division ledger entry. -/
theorem spec_C7_witness :
    ∃ n, division_boost_score 2024 5
        [("Regular Season", [("10U", [("Referee", 1)]), ("14U", [("AR", 2)])])] = .ok n ∧
      basic_score [("Regular Season", [("10U", [("Referee", 1)]), ("14U", [("AR", 2)])])] ≤ n := by
  apply spec_C7
  intro st lvls hst dv rt hdv
  simp only [List.mem_cons, List.not_mem_nil, or_false, Prod.mk.injEq] at hst
  obtain ⟨rfl, rfl⟩ := hst
  simp only [List.mem_cons, List.not_mem_nil, or_false, Prod.mk.injEq] at hdv
  rcases hdv with ⟨rfl, rfl⟩ | ⟨rfl, rfl⟩
  · exact ⟨"10U", rfl, rfl⟩
  · exact ⟨"14U", rfl, rfl⟩

/-- Lemma: `assembleGames` processes one game with `gameStep` and recurses. -/
theorem assembleGames_cons (year month : Nat) (gid : String) (g : ResolvedGame)
    (rest : List (String × ResolvedGame)) (t : UserTotalsType) :
    assembleGames year month ((gid, g) :: rest) t =
      match gameStep year month g t with
      | .error e => .error e
      | .ok t' => assembleGames year month rest t' := by
  obtain ⟨raw, dv, it, refs⟩ := g
  cases refs with
  | none => rfl
  | some rs =>
    cases rs with
    | nil => rfl
    | cons r rs' =>
      cases dv with
      | none => rfl
      | some rawDiv =>
        cases hc : convert_raw_division_to_age_group year month rawDiv with
        | error e => simp [assembleGames, gameStep, hc]
        | ok nd =>
          cases it with
          | none => simp [assembleGames, gameStep, hc]
          | some tourney => simp [assembleGames, gameStep, hc]

/-- A game whose `refs` field is absent can be dropped from the list fed to
`assembleGames` without changing the result. -/
theorem assembleGames_drop (year month : Nat) (l₁ l₂ : List (String × ResolvedGame))
    (gid : String) (g : ResolvedGame) (h : g.refs = none) (t : UserTotalsType) :
    assembleGames year month (l₁ ++ (gid, g) :: l₂) t =
      assembleGames year month (l₁ ++ l₂) t := by
  induction l₁ generalizing t with
  | nil =>
    rw [List.nil_append, List.nil_append, assembleGames_cons]
    simp [gameStep, h]
  | cons p rest ih =>
    obtain ⟨pid, pg⟩ := p
    rw [List.cons_append, List.cons_append, assembleGames_cons, assembleGames_cons]
    cases hgs : gameStep year month pg t with
    | error e => rfl
    | ok t' => exact ih t'

/-- Every entry of a successful `resolveGames` run comes from resolving a
raw game of the input list under the same key. -/
theorem resolveGames_mem {tables : Tables} {l : List (String × RawGame)}
    {out : List (String × ResolvedGame)} (h : resolveGames tables l = .ok out) :
    ∀ p ∈ out, ∃ raw, (p.1, raw) ∈ l ∧ resolveOneGame tables raw = .ok p.2 := by
  induction l generalizing out with
  | nil =>
    unfold resolveGames at h
    cases h
    intro p hp
    simp at hp
  | cons q rest ih =>
    obtain ⟨qid, qg⟩ := q
    unfold resolveGames at h
    cases hone : resolveOneGame tables qg with
    | error e =>
      simp only [hone] at h
      exact Except.noConfusion h
    | ok rg =>
      simp only [hone] at h
      cases hrest : resolveGames tables rest with
      | error e =>
        simp only [hrest] at h
        exact Except.noConfusion h
      | ok rs =>
        simp only [hrest] at h
        cases h
        intro p hp
        rcases List.mem_cons.mp hp with rfl | hp'
        · exact ⟨qg, List.mem_cons_self _ _, hone⟩
        · obtain ⟨raw, hm, hr⟩ := ih hrest p hp'
          exact ⟨raw, List.mem_cons_of_mem _ hm, hr⟩

/-- A cancelled or postponed game is skipped whole by roster resolution. -/
theorem resolveOneGame_skip {tables : Tables} {g : RawGame}
    (hst : g.status = "cancelled" ∨ g.status = "postponed") :
    resolveOneGame tables g = .ok ⟨g, none, none, none⟩ := by
  unfold resolveOneGame
  rw [if_pos hst]

/-- Roster resolution keeps the raw game. -/
theorem resolveOneGame_raw {tables : Tables} {g : RawGame} {rg : ResolvedGame}
    (h : resolveOneGame tables g = .ok rg) : rg.raw = g := by
  unfold resolveOneGame at h
  split at h
  · cases h; rfl
  · cases hlv : lookupKey tables.game_levels g.game_level_id with
    | none =>
      simp only [hlv] at h
      exact Except.noConfusion h
    | some lvl =>
      simp only [hlv] at h
      cases hra : resolveAssignmentIds tables g.id lvl.labels g.assignment_ids none with
      | error e =>
        simp only [hra] at h
        exact Except.noConfusion h
      | ok refs =>
        simp only [hra] at h
        cases h
        rfl

/-- C5: a game loaded in cancelled or postponed status never receives a
`refs` field, and dropping it from the resolved game list leaves the
ledger of `assemble_totals` unchanged (hence every score, the minutes
estimate and the export columns, all functions of that ledger). -/
theorem spec_C5 (year month : Nat) (docs : List InputDocument)
    (games : List (String × ResolvedGame)) (gid : String) (g : ResolvedGame)
    (hload : load_games docs = .ok games) (hmem : (gid, g) ∈ games)
    (hst : g.raw.status = "cancelled" ∨ g.raw.status = "postponed") :
    g.refs = none ∧
    ∀ l₁ l₂, games = l₁ ++ (gid, g) :: l₂ →
      assemble_totals year month games = assemble_totals year month (l₁ ++ l₂) := by
  have hrefs : g.refs = none := by
    unfold load_games at hload
    cases hld : loadDocs docs [] ⟨[], [], [], []⟩ with
    | error e =>
      simp only [hld] at hload
      exact Except.noConfusion hload
    | ok st =>
      obtain ⟨gms, tbls⟩ := st
      simp only [hld] at hload
      obtain ⟨raw, hm, hone⟩ := resolveGames_mem hload (gid, g) hmem
      have hraw := resolveOneGame_raw hone
      have hskip := @resolveOneGame_skip tbls raw (hraw ▸ hst)
      rw [hone] at hskip
      cases hskip
      rfl
  refine ⟨hrefs, ?_⟩
  intro l₁ l₂ hsplit
  rw [hsplit]
  unfold assemble_totals
  exact assembleGames_drop year month l₁ l₂ gid g hrefs []

example : load_games [c5Doc] = .ok c5Games := rfl

/-- C5 witness: the theorem applied to the concrete postponed game of the
scenario document, dropping it in front of the remaining game. -/
theorem spec_C5_witness :
    c5G1.refs = none ∧
    assemble_totals 2024 5 c5Games = assemble_totals 2024 5 [("g2", c5G2)] :=
  ⟨(spec_C5 2024 5 [c5Doc] c5Games "g1" c5G1 rfl (by decide) (Or.inr rfl)).1,
   (spec_C5 2024 5 [c5Doc] c5Games "g1" c5G1 rfl (by decide) (Or.inr rfl)).2
     [] [("g2", c5G2)] rfl⟩

/-- Membership in an updated table: an entry either was already present,
or sits at the updated key and carries `f` of the default or of a
previously present value. -/
theorem updKey_mem {α : Type} {d : List (String × α)} {k : String} {dflt : α} {f : α → α}
    {p : String × α} (h : p ∈ updKey d k dflt f) :
    p ∈ d ∨ (p.1 = k ∧ (p.2 = f dflt ∨ ∃ v, (k, v) ∈ d ∧ p.2 = f v)) := by
  induction d with
  | nil =>
    simp only [updKey, List.mem_singleton] at h
    subst h
    exact Or.inr ⟨rfl, Or.inl rfl⟩
  | cons q rest ih =>
    obtain ⟨k', v⟩ := q
    by_cases hk : k' = k
    · subst hk
      simp only [updKey, if_pos rfl] at h
      rcases List.mem_cons.mp h with rfl | hm
      · exact Or.inr ⟨rfl, Or.inr ⟨v, List.mem_cons_self _ _, rfl⟩⟩
      · exact Or.inl (List.mem_cons_of_mem _ hm)
    · simp only [updKey, if_neg hk] at h
      rcases List.mem_cons.mp h with rfl | hm
      · exact Or.inl (List.mem_cons_self _ _)
      · rcases ih hm with h' | ⟨hpk, hval⟩
        · exact Or.inl (List.mem_cons_of_mem _ h')
        · refine Or.inr ⟨hpk, ?_⟩
          rcases hval with h' | ⟨v', hv', hval⟩
          · exact Or.inl h'
          · exact Or.inr ⟨v', List.mem_cons_of_mem _ hv', hval⟩

/-- A single ledger increment only ever adds the division key it is given. -/
theorem bump4_divKey {dv : String} {t : UserTotalsType} {n st d r : String}
    (h : DivKeyIn dv (bump4 t n st d r)) : dv = d ∨ DivKeyIn dv t := by
  obtain ⟨ns, hns, sl, hsl, dr, hdr, hdv⟩ := h
  rcases updKey_mem hns with hns' | ⟨hnk, hnv⟩
  · exact Or.inr ⟨ns, hns', sl, hsl, dr, hdr, hdv⟩
  · have hsl2 :
        sl ∈ updKey ([] : RegularSeasonOrTourneyType) st []
            (fun divisions => updKey divisions d [] (fun roles => updKey roles r 0 (fun c => c + 1))) ∨
        ∃ v, (n, v) ∈ t ∧
          sl ∈ updKey v st []
            (fun divisions => updKey divisions d [] (fun roles => updKey roles r 0 (fun c => c + 1))) := by
      rcases hnv with hv | ⟨v, hvmem, hv⟩
      · exact Or.inl (hv ▸ hsl)
      · exact Or.inr ⟨v, hvmem, hv ▸ hsl⟩
    rcases hsl2 with hsl' | ⟨v, hvmem, hsl'⟩
    · rcases updKey_mem hsl' with hin | ⟨hslk, hslv⟩
      · simp at hin
      · rcases hslv with hv | ⟨w, hw, hv⟩
        · have : dr ∈ updKey ([] : LevelType) d [] (fun roles => updKey roles r 0 (fun c => c + 1)) :=
            hv ▸ hdr
          rcases updKey_mem this with hin | ⟨hdk, _⟩
          · simp at hin
          · exact Or.inl (hdv ▸ hdk ▸ rfl)
        · simp at hw
    · rcases updKey_mem hsl' with hin | ⟨hslk, hslv⟩
      · exact Or.inr ⟨(n, v), hvmem, sl, hin, dr, hdr, hdv⟩
      · rcases hslv with hv | ⟨w, hw, hv⟩
        · have : dr ∈ updKey ([] : LevelType) d [] (fun roles => updKey roles r 0 (fun c => c + 1)) :=
            hv ▸ hdr
          rcases updKey_mem this with hin | ⟨hdk, _⟩
          · simp at hin
          · exact Or.inl (hdv ▸ hdk ▸ rfl)
        · have : dr ∈ updKey w d [] (fun roles => updKey roles r 0 (fun c => c + 1)) :=
            hv ▸ hdr
          rcases updKey_mem this with hin | ⟨hdk, _⟩
          · exact Or.inr ⟨(n, v), hvmem, (st, w), hw, dr, hin, hdv⟩
          · exact Or.inl (hdv ▸ hdk ▸ rfl)

/-- The roster loop only ever adds the division key it is given. -/
theorem addRefs_divKey {dv : String} {st d : String} {refs : List RosterEntry}
    {t : UserTotalsType} (h : DivKeyIn dv (addRefs st d refs t)) :
    dv = d ∨ DivKeyIn dv t := by
  induction refs generalizing t with
  | nil => exact Or.inr h
  | cons r rest ih =>
    rcases ih h with h' | h'
    · exact Or.inl h'
    · rcases bump4_divKey h' with h'' | h''
      · exact Or.inl h''
      · exact Or.inr h''

/-- A game step only introduces the (truncated, normalized) division key
of its own game. -/
theorem gameStep_divKey {year month : Nat} {g : ResolvedGame} {t₀ t₁ : UserTotalsType}
    (h : gameStep year month g t₀ = .ok t₁) {dv : String} (hdv : DivKeyIn dv t₁) :
    DivKeyIn dv t₀ ∨ ∃ rawDiv nd, g.division = some rawDiv ∧
      convert_raw_division_to_age_group year month rawDiv = .ok nd ∧ dv = strTake nd 3 := by
  obtain ⟨raw, gdv, it, refs⟩ := g
  cases refs with
  | none => cases h; exact Or.inl hdv
  | some rs =>
    cases rs with
    | nil => cases h; exact Or.inl hdv
    | cons r rs' =>
      cases gdv with
      | none => exact Except.noConfusion h
      | some rawDiv =>
        simp only [gameStep] at h
        cases hc : convert_raw_division_to_age_group year month rawDiv with
        | error e => rw [hc] at h; exact Except.noConfusion h
        | ok nd =>
          rw [hc] at h
          cases it with
          | none => exact Except.noConfusion h
          | some tourney =>
            cases h
            rcases addRefs_divKey hdv with h' | h'
            · exact Or.inr ⟨rawDiv, nd, rfl, hc, h'⟩
            · exact Or.inl h'

/-- Division keys of a completed `assembleGames` run are either from the
initial accumulator or the truncated normalization of a processed game's
division. -/
theorem assembleGames_divKey {year month : Nat} {l : List (String × ResolvedGame)}
    {t₀ t : UserTotalsType} (h : assembleGames year month l t₀ = .ok t)
    {dv : String} (hdv : DivKeyIn dv t) :
    DivKeyIn dv t₀ ∨ ∃ gid g rawDiv nd, (gid, g) ∈ l ∧ g.division = some rawDiv ∧
      convert_raw_division_to_age_group year month rawDiv = .ok nd ∧ dv = strTake nd 3 := by
  induction l generalizing t₀ with
  | nil =>
    cases h
    exact Or.inl hdv
  | cons p rest ih =>
    obtain ⟨pid, pg⟩ := p
    rw [assembleGames_cons] at h
    cases hgs : gameStep year month pg t₀ with
    | error e =>
      rw [hgs] at h
      exact Except.noConfusion h
    | ok t₁ =>
      rw [hgs] at h
      rcases ih h with h₁ | ⟨gid, g, rawDiv, nd, hm, hdiv, hconv, hdv'⟩
      · rcases gameStep_divKey hgs h₁ with h₂ | ⟨rawDiv, nd, hdiv, hconv, hdv'⟩
        · exact Or.inl h₂
        · exact Or.inr ⟨pid, pg, rawDiv, nd, List.mem_cons_self _ _, hdiv, hconv, hdv'⟩
      · exact Or.inr ⟨gid, g, rawDiv, nd, List.mem_cons_of_mem _ hm, hdiv, hconv, hdv'⟩

/-- C3: every division key of the ledger produced by `assemble_totals` is
exactly the first three characters of the age-group normalization of the
division of some contributing game. -/
theorem spec_C3 (year month : Nat) (games : List (String × ResolvedGame))
    (t : UserTotalsType) (h : assemble_totals year month games = .ok t)
    (dv : String) (hdv : DivKeyIn dv t) :
    ∃ gid g rawDiv nd, (gid, g) ∈ games ∧ g.division = some rawDiv ∧
      convert_raw_division_to_age_group year month rawDiv = .ok nd ∧
      dv = strTake nd 3 := by
  rcases assembleGames_divKey h hdv with h' | h'
  · obtain ⟨ns, hns, _⟩ := h'
    simp at hns
  · exact h'

/-- C3 witness: the key "10U" of the ledger built from the C5 scenario. -/
theorem spec_C3_witness :
    ∃ gid g rawDiv nd, (gid, g) ∈ c5Games ∧ g.division = some rawDiv ∧
      convert_raw_division_to_age_group 2024 5 rawDiv = .ok nd ∧
      "10U" = strTake nd 3 := by
  apply spec_C3 2024 5 c5Games [("Jane Doe", c1Totals)] rfl "10U"
  exact ⟨("Jane Doe", c1Totals), List.mem_cons_self _ _,
    ("Regular Season", [("10U", [("Referee", 1)])]), by simp [c1Totals],
    ("10U", [("Referee", 1)]), by simp, rfl⟩

theorem docGameIds_nil : docGameIds [] = [] := rfl

theorem docGameIds_cons (d : InputDocument) (rest : List InputDocument) :
    docGameIds (d :: rest) = d.data.map RawGame.id ++ docGameIds rest := by
  simp [docGameIds]

/-- A negative `hasKey` test means the key is absent. -/
theorem hasKey_false_not_mem {κ α : Type} [DecidableEq κ] {d : List (κ × α)} {k : κ}
    (h : hasKey d k = false) : k ∉ d.map Prod.fst := by
  simp only [hasKey, List.any_eq_false, decide_eq_true_eq] at h
  intro hk
  obtain ⟨p, hp, hpk⟩ := List.mem_map.mp hk
  exact h p hp hpk

/-- A successful `addGames` run appends exactly the incoming game ids and
preserves key distinctness. -/
theorem addGames_ok_keys {fname : String} {l : List RawGame} {gs gs' : List (String × RawGame)}
    (h : addGames fname l gs = .ok gs') :
    gs'.map Prod.fst = gs.map Prod.fst ++ l.map RawGame.id ∧
    ((gs.map Prod.fst).Nodup → (gs'.map Prod.fst).Nodup) := by
  induction l generalizing gs with
  | nil =>
    cases h
    exact ⟨by simp, fun hn => hn⟩
  | cons g rest ih =>
    unfold addGames at h
    cases hk : hasKey gs g.id with
    | true => rw [hk] at h; simp at h
    | false =>
      rw [hk] at h
      simp only [Bool.false_eq_true, if_false] at h
      obtain ⟨hkeys, hnod⟩ := ih h
      constructor
      · rw [hkeys]
        simp
      · intro hn
        apply hnod
        rw [List.map_append]
        simp only [List.map_cons, List.map_nil]
        rw [List.nodup_append]
        exact ⟨hn, List.nodup_singleton _,
          fun a ha hb => by
            simp only [List.mem_singleton] at hb
            subst hb
            exact hasKey_false_not_mem hk ha⟩

/-- Lemma: `addGames` only ever fails with the duplicate-game-id message. -/
theorem addGames_error_shape {fname : String} {l : List RawGame}
    {gs : List (String × RawGame)} {msg : String}
    (h : addGames fname l gs = .error msg) :
    ∃ gid, msg = dupGameMsg gid fname := by
  induction l generalizing gs with
  | nil => cases h
  | cons g rest ih =>
    unfold addGames at h
    cases hk : hasKey gs g.id with
    | true =>
      rw [hk] at h
      simp only [if_true] at h
      cases h
      exact ⟨g.id, rfl⟩
    | false =>
      rw [hk] at h
      simp only [Bool.false_eq_true, if_false] at h
      exact ih h

/-- Lemma: `addIncluded` succeeds whenever every entity has a known type. -/
theorem addIncluded_known_ok {l : List IncludedEntity} {t : Tables}
    (h : l.all knownEntity = true) : ∃ t', addIncluded l t = .ok t' := by
  induction l generalizing t with
  | nil => exact ⟨t, rfl⟩
  | cons i rest ih =>
    simp only [List.all_cons, Bool.and_eq_true] at h
    cases i with
    | assignment a => exact ih h.2
    | event_role e => exact ih h.2
    | user u => exact ih h.2
    | game_level g => exact ih h.2
    | other ty => simp [knownEntity] at h

/-- A duplicate among the accumulated and incoming game ids makes
`loadDocs` fail (with whatever error comes first). -/
theorem loadDocs_dup_some_error {docs : List InputDocument} {gs : List (String × RawGame)}
    {tbl : Tables} (hnod : (gs.map Prod.fst).Nodup)
    (hdup : ¬(gs.map Prod.fst ++ docGameIds docs).Nodup) :
    ∃ msg, loadDocs docs gs tbl = .error msg := by
  induction docs generalizing gs tbl with
  | nil =>
    rw [docGameIds_nil, List.append_nil] at hdup
    exact absurd hnod hdup
  | cons d rest ih =>
    unfold loadDocs
    cases hg : addGames d.fname d.data gs with
    | error msg => exact ⟨msg, rfl⟩
    | ok gs' =>
      cases hi : addIncluded d.included tbl with
      | error msg => exact ⟨msg, rfl⟩
      | ok tbl' =>
        obtain ⟨hkeys, hnod'⟩ := addGames_ok_keys hg
        refine ih (hnod' hnod) ?_
        rw [hkeys, List.append_assoc]
        rw [docGameIds_cons, ← List.append_assoc] at hdup
        rw [List.append_assoc] at hdup
        exact hdup

/-- With only known entity types, a duplicate game id makes `loadDocs`
fail with the duplicate-game-id message of one of the documents. -/
theorem loadDocs_dup_error {docs : List InputDocument} {gs : List (String × RawGame)}
    {tbl : Tables} (hnod : (gs.map Prod.fst).Nodup)
    (hdup : ¬(gs.map Prod.fst ++ docGameIds docs).Nodup)
    (hknown : docs.all (fun d => d.included.all knownEntity) = true) :
    ∃ gid fname, loadDocs docs gs tbl = .error (dupGameMsg gid fname) := by
  induction docs generalizing gs tbl with
  | nil =>
    rw [docGameIds_nil, List.append_nil] at hdup
    exact absurd hnod hdup
  | cons d rest ih =>
    simp only [List.all_cons, Bool.and_eq_true] at hknown
    unfold loadDocs
    cases hg : addGames d.fname d.data gs with
    | error msg =>
      obtain ⟨gid, hgid⟩ := addGames_error_shape hg
      exact ⟨gid, d.fname, by rw [hgid]⟩
    | ok gs' =>
      obtain ⟨tbl', hi⟩ := @addIncluded_known_ok _ tbl hknown.1
      rw [hi]
      obtain ⟨hkeys, hnod'⟩ := addGames_ok_keys hg
      refine ih (hnod' hnod) ?_ hknown.2
      rw [hkeys, List.append_assoc]
      rw [docGameIds_cons, ← List.append_assoc] at hdup
      rw [List.append_assoc] at hdup
      exact hdup

/-- String append acts as append on the character lists. -/
theorem strData_append (a b : String) : (a ++ b).data = a.data ++ b.data := by
  cases a
  cases b
  rfl

/-- C4 (amended): whenever the loaded documents contain the same game id
twice, `load_games` fails and no ledger is produced — `assemble_totals` is
never reached by the pipeline; the error is the duplicate-game-id error
provided every included entity has a known type (an unknown-entity-type
error encountered earlier in processing order can preempt it). -/
theorem spec_C4 (year month : Nat) (docs : List InputDocument)
    (hdup : ¬(docGameIds docs).Nodup) :
    (∃ msg, load_games docs = .error msg ∧ main_totals year month docs = .error msg) ∧
    (knownIncludedTypes docs = true →
      ∃ gid fname, load_games docs = .error (dupGameMsg gid fname) ∧
        main_totals year month docs = .error (dupGameMsg gid fname)) := by
  constructor
  · obtain ⟨msg, hmsg⟩ :=
      @loadDocs_dup_some_error docs [] ⟨[], [], [], []⟩
        (by simp) (by simpa using hdup)
    refine ⟨msg, ?_, ?_⟩
    · unfold load_games
      rw [hmsg]
    · unfold main_totals load_games
      rw [hmsg]
  · intro hknown
    obtain ⟨gid, fname, hmsg⟩ :=
      @loadDocs_dup_error docs [] ⟨[], [], [], []⟩
        (by simp) (by simpa using hdup) hknown
    refine ⟨gid, fname, ?_, ?_⟩
    · unfold load_games
      rw [hmsg]
    · unfold main_totals load_games
      rw [hmsg]

/-- C4 counterexample: two documents share the game id `g1`, yet the run
fails with the unknown-entity-type error of the first document, not with a
duplicate-game-id error. -/
theorem spec_C4_cex :
    "g1" ∈ c4DocA.data.map RawGame.id ∧
    "g1" ∈ c4DocB.data.map RawGame.id ∧
    load_games [c4DocA, c4DocB] = .error "unknown relationship type venue" ∧
    ∀ gid fname, "unknown relationship type venue" ≠ dupGameMsg gid fname := by
  refine ⟨by decide, by decide, rfl, ?_⟩
  intro gid fname hEq
  have hd := congrArg String.data hEq
  simp only [dupGameMsg, strData_append] at hd
  simp at hd

/-- C4 witness: with only known entity types, the duplicate id `g7` across
the two documents yields the duplicate-game-id error and no ledger. -/
theorem spec_C4_witness :
    (∃ msg, load_games [c4DocC, c4DocD] = .error msg ∧
      main_totals 2024 5 [c4DocC, c4DocD] = .error msg) ∧
    (∃ gid fname, load_games [c4DocC, c4DocD] = .error (dupGameMsg gid fname) ∧
      main_totals 2024 5 [c4DocC, c4DocD] = .error (dupGameMsg gid fname)) :=
  ⟨(spec_C4 2024 5 [c4DocC, c4DocD] (by decide)).1,
   (spec_C4 2024 5 [c4DocC, c4DocD] (by decide)).2 rfl⟩

/-- Sorting a table by key does not change its entries. -/
theorem sortByKey_mem {α : Type} {d : List (String × α)} {p : String × α} :
    p ∈ sortByKey d ↔ p ∈ d :=
  (List.perm_insertionSort _ d).mem_iff

/-- Membership after the role loop of the header collection. -/
theorem collectRoles_mem {st dv : String} {rt : RoleType} {extra : List String} {x : String} :
    x ∈ collectRoles st dv rt extra ↔
      x ∈ extra ∨ ∃ q ∈ rt, x = st ++ " " ++ dv ++ " " ++ q.1 := by
  induction rt generalizing extra with
  | nil => simp [collectRoles]
  | cons q rest ih =>
    obtain ⟨role, c⟩ := q
    simp only [collectRoles]
    by_cases hc : extra.contains (st ++ " " ++ dv ++ " " ++ role) = true
    · rw [if_pos hc, ih]
      have hmem : (st ++ " " ++ dv ++ " " ++ role) ∈ extra := by simpa using hc
      constructor
      · rintro (hx | ⟨p, hp, rfl⟩)
        · exact Or.inl hx
        · exact Or.inr ⟨p, List.mem_cons_of_mem _ hp, rfl⟩
      · rintro (hx | ⟨p, hp, rfl⟩)
        · exact Or.inl hx
        · rcases List.mem_cons.mp hp with rfl | hp'
          · exact Or.inl hmem
          · exact Or.inr ⟨p, hp', rfl⟩
    · rw [if_neg hc, ih]
      simp only [List.mem_append, List.mem_singleton]
      constructor
      · rintro ((hx | hx) | ⟨p, hp, rfl⟩)
        · exact Or.inl hx
        · exact Or.inr ⟨(role, c), List.mem_cons_self _ _, hx⟩
        · exact Or.inr ⟨p, List.mem_cons_of_mem _ hp, rfl⟩
      · rintro (hx | ⟨p, hp, rfl⟩)
        · exact Or.inl (Or.inl hx)
        · rcases List.mem_cons.mp hp with rfl | hp'
          · exact Or.inl (Or.inr rfl)
          · exact Or.inr ⟨p, hp', rfl⟩

/-- The role loop of the header collection keeps the accumulator
duplicate-free. -/
theorem collectRoles_nodup {st dv : String} {rt : RoleType} {extra : List String}
    (h : extra.Nodup) : (collectRoles st dv rt extra).Nodup := by
  induction rt generalizing extra with
  | nil => exact h
  | cons q rest ih =>
    obtain ⟨role, c⟩ := q
    simp only [collectRoles]
    by_cases hc : extra.contains (st ++ " " ++ dv ++ " " ++ role) = true
    · rw [if_pos hc]
      exact ih h
    · rw [if_neg hc]
      refine ih ?_
      rw [List.nodup_append]
      refine ⟨h, List.nodup_singleton _, ?_⟩
      intro a ha hb
      simp only [List.mem_singleton] at hb
      subst hb
      exact hc (by simpa using ha)

/-- A successful division loop of the header collection adds exactly the
observed combinations and keeps the accumulator duplicate-free. -/
theorem collectDivisions_ok {year month : Nat} {st : String} {lvls : LevelType}
    {extra extra' : List String}
    (h : collectDivisions year month st lvls extra = .ok extra') :
    (∀ x, x ∈ extra' ↔ x ∈ extra ∨ DivCombo year month st lvls x) ∧
    (extra.Nodup → extra'.Nodup) := by
  induction lvls generalizing extra with
  | nil =>
    cases h
    exact ⟨fun x => by simp [DivCombo], fun hn => hn⟩
  | cons p rest ih =>
    obtain ⟨dv, rt⟩ := p
    simp only [collectDivisions] at h
    cases hc : convert_raw_division_to_age_group year month dv with
    | error e =>
      rw [hc] at h
      exact Except.noConfusion h
    | ok nd =>
      rw [hc] at h
      obtain ⟨hmem, hnod⟩ := ih h
      constructor
      · intro x
        rw [hmem x, collectRoles_mem]
        constructor
        · rintro ((hx | ⟨q, hq, rfl⟩) | hcombo)
          · exact Or.inl hx
          · exact Or.inr ⟨(dv, rt), List.mem_cons_self _ _, nd, hc, q, hq, rfl⟩
          · obtain ⟨p', hp', nd', hc', q, hq, rfl⟩ := hcombo
            exact Or.inr ⟨p', List.mem_cons_of_mem _ hp', nd', hc', q, hq, rfl⟩
        · rintro (hx | ⟨p', hp', nd', hc', q, hq, rfl⟩)
          · exact Or.inl (Or.inl hx)
          · rcases List.mem_cons.mp hp' with rfl | hp''
            · rw [hc] at hc'
              cases hc'
              exact Or.inl (Or.inr ⟨q, hq, rfl⟩)
            · exact Or.inr ⟨p', hp'', nd', hc', q, hq, rfl⟩
      · intro hn
        exact hnod (collectRoles_nodup hn)

/-- The division loop of the header collection succeeds when every
division normalizes. -/
theorem collectDivisions_allOk {year month : Nat} {st : String} {lvls : LevelType}
    {extra : List String} (h : divsAllOk year month lvls) :
    ∃ extra', collectDivisions year month st lvls extra = .ok extra' := by
  induction lvls generalizing extra with
  | nil => exact ⟨extra, rfl⟩
  | cons p rest ih =>
    obtain ⟨dv, rt⟩ := p
    obtain ⟨nd, hnd⟩ := h (dv, rt) (List.mem_cons_self _ _)
    simp only [collectDivisions, hnd]
    exact ih (fun p' hp' => h p' (List.mem_cons_of_mem _ hp'))

/-- A successful division loop means every division normalized. -/
theorem collectDivisions_ok_allOk {year month : Nat} {st : String} {lvls : LevelType}
    {extra extra' : List String}
    (h : collectDivisions year month st lvls extra = .ok extra') :
    divsAllOk year month lvls := by
  induction lvls generalizing extra with
  | nil => intro p hp; simp at hp
  | cons p rest ih =>
    obtain ⟨dv, rt⟩ := p
    simp only [collectDivisions] at h
    cases hc : convert_raw_division_to_age_group year month dv with
    | error e =>
      rw [hc] at h
      exact Except.noConfusion h
    | ok nd =>
      rw [hc] at h
      intro p' hp'
      rcases List.mem_cons.mp hp' with rfl | hp''
      · exact ⟨nd, hc⟩
      · exact ih h p' hp''

/-- Predicate `DivCombo` ignores the order of the division table. -/
theorem divCombo_sortByKey {year month : Nat} {st : String} {d : LevelType} {x : String} :
    DivCombo year month st (sortByKey d) x ↔ DivCombo year month st d x := by
  constructor
  · rintro ⟨p, hp, rest⟩
    exact ⟨p, sortByKey_mem.mp hp, rest⟩
  · rintro ⟨p, hp, rest⟩
    exact ⟨p, sortByKey_mem.mpr hp, rest⟩

/-- Predicate `divsAllOk` ignores the order of the division table. -/
theorem divsAllOk_sortByKey {year month : Nat} {d : LevelType} :
    divsAllOk year month (sortByKey d) ↔ divsAllOk year month d := by
  constructor
  · intro h p hp
    exact h p (sortByKey_mem.mpr hp)
  · intro h p hp
    exact h p (sortByKey_mem.mp hp)

/-- A successful season loop of the header collection adds exactly the
person's observed combinations and keeps the accumulator duplicate-free. -/
theorem collectSeasons_ok {year month : Nat} {totals : RegularSeasonOrTourneyType}
    {extra extra' : List String}
    (h : collectSeasons year month totals extra = .ok extra') :
    (∀ x, x ∈ extra' ↔ x ∈ extra ∨ PersonCombo year month totals x) ∧
    (extra.Nodup → extra'.Nodup) := by
  induction totals generalizing extra with
  | nil =>
    cases h
    exact ⟨fun x => by simp [PersonCombo], fun hn => hn⟩
  | cons s rest ih =>
    obtain ⟨st, lvls⟩ := s
    simp only [collectSeasons] at h
    cases hd : collectDivisions year month st (sortByKey lvls) extra with
    | error e =>
      rw [hd] at h
      exact Except.noConfusion h
    | ok extra₁ =>
      rw [hd] at h
      obtain ⟨hmem₁, hnod₁⟩ := collectDivisions_ok hd
      obtain ⟨hmem, hnod⟩ := ih h
      constructor
      · intro x
        rw [hmem x, hmem₁ x, divCombo_sortByKey]
        constructor
        · rintro ((hx | hcombo) | hperson)
          · exact Or.inl hx
          · exact Or.inr ⟨(st, lvls), List.mem_cons_self _ _, hcombo⟩
          · obtain ⟨s', hs', hcombo⟩ := hperson
            exact Or.inr ⟨s', List.mem_cons_of_mem _ hs', hcombo⟩
        · rintro (hx | ⟨s', hs', hcombo⟩)
          · exact Or.inl (Or.inl hx)
          · rcases List.mem_cons.mp hs' with rfl | hs''
            · exact Or.inl (Or.inr hcombo)
            · exact Or.inr ⟨s', hs'', hcombo⟩
      · intro hn
        exact hnod (hnod₁ hn)

/-- The season loop of the header collection succeeds when every division
normalizes. -/
theorem collectSeasons_allOk {year month : Nat} {totals : RegularSeasonOrTourneyType}
    {extra : List String} (h : totalsAllOk year month totals) :
    ∃ extra', collectSeasons year month totals extra = .ok extra' := by
  induction totals generalizing extra with
  | nil => exact ⟨extra, rfl⟩
  | cons s rest ih =>
    obtain ⟨st, lvls⟩ := s
    obtain ⟨extra₁, h₁⟩ := @collectDivisions_allOk year month st _ extra
      (divsAllOk_sortByKey.mpr (h (st, lvls) (List.mem_cons_self _ _)))
    simp only [collectSeasons, h₁]
    exact ih (fun s' hs' => h s' (List.mem_cons_of_mem _ hs'))

/-- A successful season loop means every division normalized. -/
theorem collectSeasons_ok_allOk {year month : Nat} {totals : RegularSeasonOrTourneyType}
    {extra extra' : List String}
    (h : collectSeasons year month totals extra = .ok extra') :
    totalsAllOk year month totals := by
  induction totals generalizing extra with
  | nil => intro s hs; simp at hs
  | cons s rest ih =>
    obtain ⟨st, lvls⟩ := s
    simp only [collectSeasons] at h
    cases hd : collectDivisions year month st (sortByKey lvls) extra with
    | error e =>
      rw [hd] at h
      exact Except.noConfusion h
    | ok extra₁ =>
      rw [hd] at h
      intro s' hs'
      rcases List.mem_cons.mp hs' with rfl | hs''
      · exact divsAllOk_sortByKey.mp (collectDivisions_ok_allOk hd)
      · exact ih h s' hs''

/-- A successful person loop of the header collection gathers exactly the
ledger-wide observed combinations, duplicate-free. -/
theorem collectUsers_ok {year month : Nat} {overall : UserTotalsType}
    {extra extra' : List String}
    (h : collectUsers year month overall extra = .ok extra') :
    (∀ x, x ∈ extra' ↔ x ∈ extra ∨ LedgerCombo year month overall x) ∧
    (extra.Nodup → extra'.Nodup) := by
  induction overall generalizing extra with
  | nil =>
    cases h
    exact ⟨fun x => by simp [LedgerCombo], fun hn => hn⟩
  | cons u rest ih =>
    obtain ⟨name, totals⟩ := u
    simp only [collectUsers] at h
    cases hs : collectSeasons year month totals extra with
    | error e =>
      rw [hs] at h
      exact Except.noConfusion h
    | ok extra₁ =>
      rw [hs] at h
      obtain ⟨hmem₁, hnod₁⟩ := collectSeasons_ok hs
      obtain ⟨hmem, hnod⟩ := ih h
      constructor
      · intro x
        rw [hmem x, hmem₁ x]
        constructor
        · rintro ((hx | hcombo) | hledger)
          · exact Or.inl hx
          · exact Or.inr ⟨(name, totals), List.mem_cons_self _ _, hcombo⟩
          · obtain ⟨u', hu', hcombo⟩ := hledger
            exact Or.inr ⟨u', List.mem_cons_of_mem _ hu', hcombo⟩
        · rintro (hx | ⟨u', hu', hcombo⟩)
          · exact Or.inl (Or.inl hx)
          · rcases List.mem_cons.mp hu' with rfl | hu''
            · exact Or.inl (Or.inr hcombo)
            · exact Or.inr ⟨u', hu'', hcombo⟩
      · intro hn
        exact hnod (hnod₁ hn)

/-- The person loop succeeds when every division of the ledger
normalizes. -/
theorem collectUsers_allOk {year month : Nat} {overall : UserTotalsType}
    {extra : List String} (h : ledgerAllOk year month overall) :
    ∃ extra', collectUsers year month overall extra = .ok extra' := by
  induction overall generalizing extra with
  | nil => exact ⟨extra, rfl⟩
  | cons u rest ih =>
    obtain ⟨name, totals⟩ := u
    obtain ⟨extra₁, h₁⟩ := @collectSeasons_allOk year month _ extra
      (h (name, totals) (List.mem_cons_self _ _))
    simp only [collectUsers, h₁]
    exact ih (fun u' hu' => h u' (List.mem_cons_of_mem _ hu'))

/-- A successful person loop means every division of the ledger
normalized. -/
theorem collectUsers_ok_allOk {year month : Nat} {overall : UserTotalsType}
    {extra extra' : List String}
    (h : collectUsers year month overall extra = .ok extra') :
    ledgerAllOk year month overall := by
  induction overall generalizing extra with
  | nil => intro u hu; simp at hu
  | cons u rest ih =>
    obtain ⟨name, totals⟩ := u
    simp only [collectUsers] at h
    cases hs : collectSeasons year month totals extra with
    | error e =>
      rw [hs] at h
      exact Except.noConfusion h
    | ok extra₁ =>
      rw [hs] at h
      intro u' hu'
      rcases List.mem_cons.mp hu' with rfl | hu''
      · exact collectSeasons_ok_allOk hs
      · exact ih h u' hu''

/-- Observed combinations only depend on ledger membership. -/
theorem ledgerCombo_perm {year month : Nat} {l₁ l₂ : UserTotalsType} {x : String}
    (hp : List.Perm l₁ l₂) :
    LedgerCombo year month l₁ x ↔ LedgerCombo year month l₂ x := by
  constructor
  · rintro ⟨u, hu, hc⟩
    exact ⟨u, hp.mem_iff.mp hu, hc⟩
  · rintro ⟨u, hu, hc⟩
    exact ⟨u, hp.mem_iff.mpr hu, hc⟩

/-- Shape of a successful header computation. -/
theorem get_headers_ok {year month : Nat} {overall : UserTotalsType} {hs : List String}
    (h : get_headers_for_spreadsheet year month overall = .ok hs) :
    ∃ extra, collectUsers year month overall [] = .ok extra ∧
      hs = fixedHeaders ++ List.insertionSort (fun a b : String => a.data ≤ b.data) extra := by
  unfold get_headers_for_spreadsheet at h
  cases hc : collectUsers year month overall [] with
  | error e =>
    rw [hc] at h
    exact Except.noConfusion h
  | ok extra =>
    rw [hc] at h
    cases h
    exact ⟨extra, rfl, rfl⟩

/-- The dynamic column set of the header row is invariant under
reordering of the ledger's people. -/
theorem get_headers_perm {year month : Nat} {l₁ l₂ : UserTotalsType} {hs : List String}
    (hp : List.Perm l₁ l₂)
    (h : get_headers_for_spreadsheet year month l₁ = .ok hs) :
    get_headers_for_spreadsheet year month l₂ = .ok hs := by
  obtain ⟨e₁, hc₁, rfl⟩ := get_headers_ok h
  have hall₂ : ledgerAllOk year month l₂ := fun u hu =>
    collectUsers_ok_allOk hc₁ u (hp.mem_iff.mpr hu)
  obtain ⟨e₂, hc₂⟩ := @collectUsers_allOk year month _ [] hall₂
  obtain ⟨hm₁, hn₁⟩ := collectUsers_ok hc₁
  obtain ⟨hm₂, hn₂⟩ := collectUsers_ok hc₂
  have hperm : List.Perm e₁ e₂ := by
    apply List.perm_of_nodup_nodup_toFinset_eq (hn₁ List.nodup_nil) (hn₂ List.nodup_nil)
    ext x
    simp only [List.mem_toFinset]
    rw [hm₁ x, hm₂ x]
    simp only [List.not_mem_nil, false_or]
    exact ledgerCombo_perm hp
  have hsorteq : List.insertionSort (fun a b : String => a.data ≤ b.data) e₁ =
      List.insertionSort (fun a b : String => a.data ≤ b.data) e₂ := by
    apply List.eq_of_perm_of_sorted ?_ (List.sorted_insertionSort _ _)
      (List.sorted_insertionSort _ _)
    exact ((List.perm_insertionSort _ e₁).trans hperm).trans
      (List.perm_insertionSort _ e₂).symm
  unfold get_headers_for_spreadsheet
  simp only [hc₂]
  rw [hsorteq]

/-- The header row starts with the fixed columns; the rest is the sorted,
duplicate-free set of the ledger's observed combinations. -/
theorem get_headers_shape {year month : Nat} {l : UserTotalsType} {hs : List String}
    (h : get_headers_for_spreadsheet year month l = .ok hs) :
    hs.take 5 = fixedHeaders ∧
    (hs.drop 5).Sorted (fun a b : String => a.data ≤ b.data) ∧
    (hs.drop 5).Nodup ∧
    ∀ x, x ∈ hs.drop 5 ↔ LedgerCombo year month l x := by
  obtain ⟨extra, hc, rfl⟩ := get_headers_ok h
  obtain ⟨hm, hn⟩ := collectUsers_ok hc
  have hlen : fixedHeaders.length = 5 := rfl
  refine ⟨?_, ?_, ?_, ?_⟩
  · rw [← hlen, List.take_left]
  · rw [← hlen, List.drop_left]
    exact List.sorted_insertionSort _ _
  · rw [← hlen, List.drop_left]
    exact ((List.perm_insertionSort _ extra).nodup_iff).mpr (hn List.nodup_nil)
  · intro x
    rw [← hlen, List.drop_left, (List.perm_insertionSort _ extra).mem_iff, hm x]
    simp

theorem hasKey_cons {κ α : Type} [DecidableEq κ] (a : κ) (b : α) (l : List (κ × α)) (k : κ) :
    hasKey ((a, b) :: l) k = (decide (a = k) || hasKey l k) := rfl

theorem hasKey_append {κ α : Type} [DecidableEq κ] (d₁ d₂ : List (κ × α)) (k : κ) :
    hasKey (d₁ ++ d₂) k = (hasKey d₁ k || hasKey d₂ k) := by
  simp [hasKey]

/-- Keys after a dict assignment: the old keys plus the assigned one. -/
theorem setKey_hasKey_eq {κ α : Type} [DecidableEq κ] (d : List (κ × α)) (k k' : κ) (v : α) :
    hasKey (setKey d k v) k' = (hasKey d k' || decide (k' = k)) := by
  induction d with
  | nil => simp [setKey, hasKey, eq_comm]
  | cons p rest ih =>
    obtain ⟨k₀, v₀⟩ := p
    by_cases hk : k₀ = k
    · subst hk
      simp only [setKey, if_pos rfl]
      by_cases h' : k₀ = k'
      · simp [hasKey, h']
      · simp [hasKey, h', Ne.symm h']
    · simp only [setKey, if_neg hk]
      rw [hasKey_cons, hasKey_cons, ih, Bool.or_assoc]

/-- The role write loop never removes row keys. -/
theorem writeRoles_hasKey {st dv : String} {rt : RoleType} {row : List (String × Cell)}
    {h : String} (hh : hasKey row h = true) :
    hasKey (writeRoles st dv rt row) h = true := by
  induction rt generalizing row with
  | nil => exact hh
  | cons q rest ih =>
    obtain ⟨role, c⟩ := q
    simp only [writeRoles]
    apply ih
    rw [setKey_hasKey_eq, hh]
    rfl

/-- The division write loop never removes row keys. -/
theorem writeDivisions_hasKey {year month : Nat} {st : String} {lvls : LevelType}
    {row row' : List (String × Cell)} {h : String}
    (hw : writeDivisions year month st lvls row = .ok row') (hh : hasKey row h = true) :
    hasKey row' h = true := by
  induction lvls generalizing row with
  | nil =>
    cases hw
    exact hh
  | cons p rest ih =>
    obtain ⟨dv, rt⟩ := p
    simp only [writeDivisions] at hw
    cases hc : convert_raw_division_to_age_group year month dv with
    | error e =>
      rw [hc] at hw
      exact Except.noConfusion hw
    | ok nd =>
      rw [hc] at hw
      exact ih hw (writeRoles_hasKey hh)

/-- The season write loop never removes row keys. -/
theorem writeSeasons_hasKey {year month : Nat} {totals : RegularSeasonOrTourneyType}
    {row row' : List (String × Cell)} {h : String}
    (hw : writeSeasons year month totals row = .ok row') (hh : hasKey row h = true) :
    hasKey row' h = true := by
  induction totals generalizing row with
  | nil =>
    cases hw
    exact hh
  | cons s rest ih =>
    obtain ⟨st, lvls⟩ := s
    simp only [writeSeasons] at hw
    cases hd : writeDivisions year month st (sortByKey lvls) row with
    | error e =>
      rw [hd] at hw
      exact Except.noConfusion hw
    | ok row₁ =>
      rw [hd] at hw
      exact ih hw (writeDivisions_hasKey hd hh)

/-- The zero-default loop never removes row keys. -/
theorem defaults_mono {headers : List String} {row : List (String × Cell)} {h : String}
    (hh : hasKey row h = true) :
    hasKey (headers.foldl
      (fun row h' => if hasKey row h' then row else row ++ [(h', Cell.int 0)]) row) h = true := by
  induction headers generalizing row with
  | nil => exact hh
  | cons h' rest ih =>
    simp only [List.foldl_cons]
    apply ih
    by_cases hc : hasKey row h' = true
    · rw [if_pos hc]
      exact hh
    · rw [if_neg hc, hasKey_append, hh]
      rfl

/-- After the zero-default loop every header is a key of the row. -/
theorem defaults_covers (headers : List String) (row : List (String × Cell)) :
    ∀ h ∈ headers, hasKey (headers.foldl
      (fun row h' => if hasKey row h' then row else row ++ [(h', Cell.int 0)]) row) h = true := by
  induction headers generalizing row with
  | nil =>
    intro h hh
    simp at hh
  | cons h' rest ih =>
    intro h hh
    simp only [List.foldl_cons]
    rcases List.mem_cons.mp hh with rfl | hmem
    · apply defaults_mono
      by_cases hc : hasKey row h = true
      · rw [if_pos hc]
        exact hc
      · rw [if_neg hc, hasKey_append]
        simp [hasKey]
    · exact ih _ h hmem

/-- Every header passed to the row shaper appears as a key of the produced
row. -/
theorem format_covers {year month : Nat} {user : String}
    {totals : RegularSeasonOrTourneyType} {minutes : ℚ} {headers : List String}
    {row : List (String × Cell)}
    (hf : format_user_totals_for_spreadsheet year month user totals minutes headers = .ok row) :
    ∀ h ∈ headers, hasKey row h = true := by
  unfold format_user_totals_for_spreadsheet at hf
  cases h₁ : division_boost_score year month totals with
  | error e =>
    rw [h₁] at hf
    exact Except.noConfusion hf
  | ok db =>
    rw [h₁] at hf
    cases h₂ : division_and_role_boost_score year month totals with
    | error e =>
      rw [h₂] at hf
      exact Except.noConfusion hf
    | ok dar =>
      rw [h₂] at hf
      cases h₃ : division_tourney_and_role_boost_score year month totals with
      | error e =>
        rw [h₃] at hf
        exact Except.noConfusion hf
      | ok dtr =>
        rw [h₃] at hf
        intro h hh
        exact writeSeasons_hasKey hf (defaults_covers headers _ h hh)

/-- C9: the dynamic column set of the header row is the union of all
observed season/division/role combinations over the whole ledger, sorted
lexicographically and independent of ledger iteration order, and the row
shaper gives every person's row a value for every column of that set. -/
theorem spec_C9 :
    (∀ (year month : Nat) (l₁ l₂ : UserTotalsType) (hs : List String), List.Perm l₁ l₂ →
      get_headers_for_spreadsheet year month l₁ = .ok hs →
      get_headers_for_spreadsheet year month l₂ = .ok hs) ∧
    (∀ (year month : Nat) (l : UserTotalsType) (hs : List String),
      get_headers_for_spreadsheet year month l = .ok hs →
      hs.take 5 = fixedHeaders ∧
      (hs.drop 5).Sorted (fun a b : String => a.data ≤ b.data) ∧
      (∀ x, x ∈ hs.drop 5 ↔ LedgerCombo year month l x)) ∧
    (∀ (year month : Nat) (user : String) (totals : RegularSeasonOrTourneyType)
      (minutes : ℚ) (headers : List String) (row : List (String × Cell)),
      format_user_totals_for_spreadsheet year month user totals minutes headers = .ok row →
      ∀ h ∈ headers, hasKey row h = true) :=
  ⟨fun _ _ _ _ _ hp h => get_headers_perm hp h,
   fun _ _ _ _ h =>
     ⟨(get_headers_shape h).1, (get_headers_shape h).2.1, (get_headers_shape h).2.2.2⟩,
   fun _ _ _ _ _ _ _ hf => format_covers hf⟩

example : get_headers_for_spreadsheet 2024 5 c9L1 = .ok c9Headers := rfl

example : format_user_totals_for_spreadsheet 2024 5 "A" c1Totals 50 c9Headers = .ok c9Row := rfl

/-- C9 witness: swapping the two people leaves the header row unchanged,
and person A's row carries a key for the dynamic column introduced only by
person B. -/
theorem spec_C9_witness :
    get_headers_for_spreadsheet 2024 5 c9L2 = .ok c9Headers ∧
    hasKey c9Row "Tournament 10U Referee" = true :=
  ⟨spec_C9.1 2024 5 c9L1 c9L2 c9Headers (List.Perm.swap ("B", c8Tournament) ("A", c1Totals) []) rfl,
   spec_C9.2.2 2024 5 "A" c1Totals 50 c9Headers c9Row rfl
     "Tournament 10U Referee" (by simp [c9Headers, fixedHeaders])⟩
